import Mathlib

/-!
Verification development for the `stingray` time-series base module
(`stingray/base.py`): a shallow embedding of `StingrayObject` /
`StingrayTimeseries` and of the operations the specification talks about
(attribute classification, masking, GTI application, arithmetic between
series, join preprocessing, rebinning, truncation, tabular round-trip,
equality), together with theorems settling the specification claims.

Conventions of the embedding:
* numpy 1-D float arrays are `List ℚ`, (n,2) GTI arrays are `List (ℚ × ℚ)`,
  boolean arrays are `List Bool`; exact rational arithmetic stands in for
  floating point (all concrete inputs in this file are small rationals, where
  float and rational arithmetic agree).
* a `StingrayTimeseries` instance is the record `TS` below: the private
  backing fields `_time`, `_gti`, `_mask`, the plain class attributes `dt`,
  `mjdref`, `notes` (modelled with `dt` scalar; per-sample `dt` arrays are
  out of scope of the claims), and `extra`, an association list holding every
  dynamically `setattr`-ed attribute (e.g. `counts`).  Attributes whose value
  is Python `None` are absent from `extra`: a `None`-valued attribute is
  invisible to `data_attributes()` (its `np.asarray` has object dtype), so
  presence-with-`None` and absence are observationally equal there.
* fallible code returns `Except String α`; the message names the Python
  exception class.
* the helper modules `stingray.gti` and `stingray.utils` are not part of the
  provided source; the definitions for them below are modelled from the
  spec's section 4.1 and carry a doc comment saying so.
-/

namespace StingraySpec

/-- Value of a Python attribute as seen by the classification code:
a scalar number, a string (scalar for `np.isscalar`), a 1-D numeric array,
a 1-D boolean array, or an (n,2) numeric array (a GTI-shaped array). -/
inductive AttrVal where
  | scal (q : ℚ)
  | vstr (s : String)
  | arr (xs : List ℚ)
  | barr (xs : List Bool)
  | mat (xs : List (ℚ × ℚ))
deriving DecidableEq

/-- Python `np.isscalar`: true for numbers and strings. -/
def AttrVal.isScalar : AttrVal → Bool
  | .scal _ => true
  | .vstr _ => true
  | _ => false

/-- Leading dimension `np.shape(v)[0]` for array-like values, `none` for
scalars and strings (which either have no shape or are excluded by the
`isinstance(..., str)` / `Iterable` guards before the shape is taken). -/
def AttrVal.leadingLen : AttrVal → Option Nat
  | .arr xs => some xs.length
  | .barr xs => some xs.length
  | .mat xs => some xs.length
  | _ => none

/-- Python `np.size`. -/
def AttrVal.sizeVal : AttrVal → Nat
  | .arr xs => xs.length
  | .barr xs => xs.length
  | .mat xs => 2 * xs.length
  | .scal _ => 1
  | .vstr _ => 1

/-- Python slice / boolean-mask index, the two index forms `apply_mask` and
`__getitem__` feed to numpy in the code paths under study. -/
inductive PyIndex where
  | boolMask (m : List Bool)
  | sliceIdx (start stop : Option Int)
deriving DecidableEq

/-- Python slice semantics `l[start:stop]` (step 1): negative indices count
from the end, out-of-range indices are clamped. -/
def pySlice (l : List α) (start stop : Option Int) : List α :=
  let n : Int := l.length
  let norm : Int → Int := fun i => if i < 0 then max 0 (n + i) else min i n
  let s := norm (start.getD 0)
  let e := norm (stop.getD n)
  (l.take e.toNat).drop s.toNat

/-- Apply a `PyIndex` to a plain list (numpy `a[mask]` / `a[slice]`). -/
def applyIdxList (l : List α) : PyIndex → List α
  | .boolMask m => (l.zip m).filterMap (fun p => if p.2 then some p.1 else none)
  | .sliceIdx s e => pySlice l s e

/-- Apply a `PyIndex` to an attribute value (scalars are unreachable: numpy
would raise there, and the classification lists only array values). -/
def AttrVal.applyIdx : AttrVal → PyIndex → AttrVal
  | .arr xs, i => .arr (applyIdxList xs i)
  | .barr xs, i => .barr (applyIdxList xs i)
  | .mat xs, i => .mat (applyIdxList xs i)
  | v, _ => v

/-- Numpy `searchsorted` with the default `side="left"` on a sorted list:
the count of elements strictly below `v`. -/
def searchsortedQ (l : List ℚ) (v : ℚ) : Nat :=
  l.countP (fun x => decide (x < v))

/-- The `StingrayTimeseries.not_array_attr` class attribute. -/
def notArrayAttr : List String := ["gti"]

/-- Attribute names that are not routed to the dynamic-attribute store:
fixed fields of the class, properties and their backing fields. -/
def reservedNames : List String :=
  ["time", "gti", "mask", "dt", "mjdref", "notes", "_time", "_gti", "_mask"]

/-- The `StingrayTimeseries` record.  Field-for-field image of the instance
attributes a `StingrayTimeseries()` owns in `base.py`: `_time`, `_gti`,
`_mask` (the lazy caches behind the `time`/`gti`/`mask` properties), the
scalars `dt` and `mjdref`, the string `notes`, and the open-ended set of
dynamically named attributes in `extra`.  The always-`None` defaults
`ephem`, `timeref`, `timesys` are omitted: being `None` they are invisible
to `data_attributes()` and hence to every operation modelled here (a
non-`None` string value for them is representable as an `extra` entry). -/
structure TS where
  _time : Option (List ℚ) := none
  _gti : Option (List (ℚ × ℚ)) := none
  _mask : Option (List Bool) := none
  dt : ℚ := 0
  mjdref : ℚ := 0
  notes : String := ""
  extra : List (String × AttrVal) := []
deriving DecidableEq

/-- `StingrayTimeseries._set_times`: an empty or `None` time array is stored
as `None` (`if time is None or np.size(time) == 0: self._time = None`). -/
def setTimesNorm : Option (List ℚ) → Option (List ℚ)
  | none => none
  | some [] => none
  | some l => some l

/-- The `time` property (getter): returns `_time`. -/
def TS.time (ts : TS) : Option (List ℚ) := ts._time

/-- Length of the main array (`np.shape(main)[0]`), `0` when absent. -/
def TS.lenTime (ts : TS) : Nat := (ts._time.getD []).length

/-- The `gti` property (getter): the stored `_gti`, lazily derived as
`[[time[0] - dt/2, time[-1] + dt/2]]` when absent and `time` is present.
The model does not replay the getter's cache write into `_gti` (a pure
reader sees the same value either way); `dt` is scalar in this model. -/
def TS.gti (ts : TS) : Option (List (ℚ × ℚ)) :=
  match ts._gti, ts._time with
  | some g, _ => some g
  | none, some t => some [(t.headD 0 - ts.dt / 2, t.getLastD 0 + ts.dt / 2)]
  | none, none => none

/-- `StingrayObject.data_attributes()` restricted to the model's fields:
the private caches when set (their values are plain numeric/bool arrays,
hence data), the scalars `dt`, `mjdref`, the string `notes`, and every
`extra` entry.  The `time`/`gti`/`mask` properties and the class attributes
`main_array_attr`/`not_array_attr` are excluded exactly as in the source;
`None`-valued attributes are absent from the model (object dtype). -/
def TS.dataAttributes (ts : TS) : List String :=
  (if ts._time.isSome then ["_time"] else []) ++
  (if ts._gti.isSome then ["_gti"] else []) ++
  (if ts._mask.isSome then ["_mask"] else []) ++
  ["dt", "mjdref", "notes"] ++ ts.extra.map Prod.fst

/-- Predicate on an `extra` entry for membership in `array_attrs()`:
public name, not the main attribute, not in `not_array_attr`, an iterable
non-string value whose leading length equals `len(time)`. -/
def arrayAttrPred (tlen : Nat) (p : String × AttrVal) : Bool :=
  !p.1.startsWith "_" && p.1 != "time" && !notArrayAttr.contains p.1 &&
    p.2.leadingLen == some tlen

/-- `StingrayObject.array_attrs()`.  Of the model's fixed fields none can
qualify (`dt`/`mjdref` are scalars, `notes` is a string, the caches are
private), so the candidates are exactly the `extra` entries. -/
def TS.array_attrs (ts : TS) : List String :=
  match ts._time with
  | none => []
  | some t => (ts.extra.filter (arrayAttrPred t.length)).map Prod.fst

/-- Predicate on an `extra` entry for membership in `internal_array_attrs()`:
private name, not the backing field of the main attribute, not `"_" +` a
`not_array_attr` entry, non-scalar, non-empty, leading length `len(time)`. -/
def internalAttrPred (tlen : Nat) (p : String × AttrVal) : Bool :=
  p.1.startsWith "_" && p.1 != "_time" &&
    !(notArrayAttr.map (fun a => "_" ++ a)).contains p.1 &&
    !p.2.isScalar && p.2.sizeVal != 0 && p.2.leadingLen == some tlen

/-- `StingrayObject.internal_array_attrs()`: the `_mask` cache when it is a
non-empty bool array aligned with `time`, plus the qualifying private
`extra` entries. -/
def TS.internal_array_attrs (ts : TS) : List String :=
  match ts._time with
  | none => []
  | some t =>
    (match ts._mask with
     | some m => if m.length != 0 && m.length == t.length then ["_mask"] else []
     | none => []) ++
    (ts.extra.filter (internalAttrPred t.length)).map Prod.fst

/-- `StingrayObject.meta_attrs()`: the public data attributes that are in
none of the array categories, with `not_array_attr` (i.e. `"gti"`)
force-appended. -/
def TS.meta_attrs (ts : TS) : List String :=
  let arrs := ts.array_attrs ++ ["time"] ++ ts.internal_array_attrs
  (ts.dataAttributes.filter (fun n => !arrs.contains n && !n.startsWith "_")) ++
    notArrayAttr

/-- Python `getattr` on the names the operations read, as an `Option`:
`none` is Python `None` (or, for `extra` names, a missing attribute; the two
are not distinguished by any modelled code path that reaches here). -/
def TS.getAttr (ts : TS) (n : String) : Option AttrVal :=
  if n = "time" then ts._time.map .arr
  else if n = "gti" then ts.gti.map .mat
  else if n = "dt" then some (.scal ts.dt)
  else if n = "mjdref" then some (.scal ts.mjdref)
  else if n = "notes" then some (.vstr ts.notes)
  else if n = "_time" then ts._time.map .arr
  else if n = "_gti" then ts._gti.map .mat
  else if n = "_mask" then ts._mask.map .barr
  else ts.extra.lookup n

/-- Replace the value under a key, or append the pair when absent. -/
def upsert (l : List (String × AttrVal)) (n : String) (v : AttrVal) :
    List (String × AttrVal) :=
  if l.any (fun p => p.1 == n) then
    l.map (fun p => if p.1 == n then (n, v) else p)
  else l ++ [(n, v)]

/-- The `time` property setter applied to `None`: every array and internal
array attribute is set to `None` (here: erased) before `_time` is cleared. -/
def TS.clearArrayAttrs (ts : TS) : TS :=
  let names := ts.internal_array_attrs ++ ts.array_attrs
  { ts with
    _mask := if names.contains "_mask" then none else ts._mask,
    extra := ts.extra.filter (fun p => !names.contains p.1) }

/-- Python `setattr` on a `StingrayTimeseries`:
* `time` routes through the `time` property setter (`_check_value_size`,
  whose shape-mismatch `ValueError` branches are unreachable in the modelled
  paths — every modelled caller either sets `time` on a fresh object or with
  an equal-length array — then `None`-clearing and `_set_times`);
* `gti` routes through the `gti` setter: storing `None` returns early
  (without touching the mask cache), storing an array also invalidates
  `_mask`;
* `dt`, `mjdref`, `notes`, `_time`, `_gti`, `_mask` are plain attributes;
* every other name goes to the dynamic store, `None` erasing the entry.
Branches for value kinds the source would reject (e.g. a scalar `time`)
return the object unchanged and are unreachable from the modelled paths. -/
def TS.setAttr (ts : TS) (n : String) (v : Option AttrVal) : TS :=
  if n = "time" then
    match v with
    | none => { ts.clearArrayAttrs with _time := none }
    | some (.arr xs) => { ts with _time := setTimesNorm (some xs) }
    | some _ => ts
  else if n = "gti" then
    match v with
    | none => { ts with _gti := none }
    | some (.mat g) => { ts with _gti := some g, _mask := none }
    | some _ => ts
  else if n = "dt" then
    match v with
    | some (.scal q) => { ts with dt := q }
    | _ => ts
  else if n = "mjdref" then
    match v with
    | some (.scal q) => { ts with mjdref := q }
    | _ => ts
  else if n = "notes" then
    match v with
    | some (.vstr s) => { ts with notes := s }
    | _ => ts
  else if n = "_time" then
    match v with
    | none => { ts with _time := none }
    | some (.arr xs) => { ts with _time := some xs }
    | some _ => ts
  else if n = "_gti" then
    match v with
    | none => { ts with _gti := none }
    | some (.mat g) => { ts with _gti := some g }
    | some _ => ts
  else if n = "_mask" then
    match v with
    | none => { ts with _mask := none }
    | some (.barr m) => { ts with _mask := some m }
    | some _ => ts
  else if n = "mask" then ts
  else
    match v with
    | some w => { ts with extra := upsert ts.extra n w }
    | none => { ts with extra := ts.extra.filter (fun p => p.1 != n) }

/-- Validity of a GTI list per the spec: sorted, non-overlapping (touching
allowed), every `start < end`. -/
def gtisValid (g : List (ℚ × ℚ)) : Bool :=
  g.all (fun p => decide (p.1 < p.2)) &&
    (g.zip g.tail).all (fun p => decide (p.1.2 ≤ p.2.1))

/-- Modelled from the spec: `check_gtis` of the missing `stingray.gti`
module.  Spec section 4.1: "`validate(intervals)`: fails with
`InvalidIntervals` if any interval is unsorted, overlapping, or has
`start >= end`". -/
def checkGtis (g : List (ℚ × ℚ)) : Except String Unit :=
  if gtisValid g then .ok () else .error "InvalidIntervals"

/-- Modelled from the spec: `create_gti_mask` of the missing `stingray.gti`
module.  Spec section 4.1: "`mask(time, intervals, spacing)`: returns a
boolean vector, one entry per time sample, true iff the sample (treated as a
point, or as `[t - spacing/2, t + spacing/2]` when spacing > 0 is
semantically relevant to the boundary) falls within some interval.  Must
match interval half-open semantics exactly (`t == end` is excluded)." -/
def createGtiMask (time : List ℚ) (gti : List (ℚ × ℚ)) (dt : ℚ) : List Bool :=
  time.map (fun t => gti.any (fun g =>
    if dt = 0 then decide (g.1 ≤ t) && decide (t < g.2)
    else decide (g.1 ≤ t - dt / 2) && decide (t + dt / 2 ≤ g.2)))

/-- Modelled from the spec: `cross_two_gtis` of the missing `stingray.gti`
module.  Spec section 4.1: "`intersect(a, b)`: set intersection of two
interval lists; output is the minimal interval list covering exactly the
overlap", with touching intervals (`a.end == b.start`) not overlapping. -/
def crossTwoGtis (a b : List (ℚ × ℚ)) : List (ℚ × ℚ) :=
  a.flatMap (fun i => b.filterMap (fun j =>
    let s := max i.1 j.1
    let e := min i.2 j.2
    if s < e then some (s, e) else none))

/-- `StingrayObject.get_meta_dict()`: the meta attributes with a
non-`None` value, in `meta_attrs()` order. -/
def TS.get_meta_dict (ts : TS) : List (String × AttrVal) :=
  ts.meta_attrs.filterMap (fun n => (ts.getAttr n).map (fun v => (n, v)))

/-- `StingrayObject.apply_mask(mask, inplace, filtered_attrs)`.
With `inplace = false` a fresh object receives deep copies of all meta
attributes (deep copy is the identity in this value model), then the main
array is filtered — through the `_time` backing field, since
`hasattr(self, "_time")` holds — and each internal/array attribute is
either filtered or set to `None`.  With `inplace = true` the same writes
land on the object itself. -/
def TS.applyMask (ts : TS) (idx : PyIndex) (inplace : Bool)
    (filteredAttrs : Option (List String)) : TS :=
  let allAttrs := ts.internal_array_attrs ++ ts.array_attrs
  let filtered := filteredAttrs.getD allAttrs
  let base : TS :=
    if inplace then ts
    else ts.meta_attrs.foldl (fun acc n => acc.setAttr n (ts.getAttr n)) {}
  let base : TS := { base with _time := ts._time.map (fun l => applyIdxList l idx) }
  allAttrs.foldl (fun acc n => acc.setAttr n
    (if filtered.contains n then (ts.getAttr n).map (fun v => v.applyIdx idx)
     else none)) base

/-- `StingrayTimeseries.apply_gtis(new_gti, inplace)`: default the GTI to
the (lazily derived) current one, validate it, build the mask, delegate to
`apply_mask`, and — only under `inplace` — write the supplied GTI back
through the `gti` setter.  The `none` fallthroughs are the `TypeError`s
numpy/`check_gtis` would raise on a `None` GTI or `None` time. -/
def TS.applyGtis (ts : TS) (newGti : Option (List (ℚ × ℚ))) (inplace : Bool) :
    Except String TS :=
  let gOpt := match newGti with
    | some g => some g
    | none => ts.gti
  match gOpt with
  | none => .error "TypeError: GTI is None"
  | some g =>
    match checkGtis g with
    | .error e => .error e
    | .ok _ =>
      match ts._time with
      | none => .error "TypeError: time is None"
      | some t =>
        let good := createGtiMask t g ts.dt
        let newts := ts.applyMask (.boolMask good) inplace none
        if inplace then .ok (newts.setAttr "gti" (some (.mat g)))
        else .ok newts

/-- Set-equality of name lists (`set(a) == set(b)` in the source). -/
def listSetEq (a b : List String) : Bool :=
  a.all (fun n => b.contains n) && b.all (fun n => a.contains n)

/-- `np.array_equal` on two optional array-like attribute values: two
`None`s compare equal (numpy packs them into equal object scalars), a
`None` against an array compares false, two arrays compare by shape and
elements.  Numpy's cross-dtype equalities (a bool array against a 0/1
numeric array) are not modelled; no modelled path compares across kinds. -/
def npArrayEqualVal : Option AttrVal → Option AttrVal → Bool
  | none, none => true
  | some v, some w => v == w
  | _, _ => false

/-- One meta-attribute comparison step of `StingrayObject.__eq__`:
mismatching scalar-ness is `False`; scalars compare with `==`; the rest
with `np.array_equal`. -/
def metaValEq (a b : Option AttrVal) : Bool :=
  let sa := (a.map AttrVal.isScalar).getD false
  let sb := (b.map AttrVal.isScalar).getD false
  if sa != sb then false
  else if sa then a == b
  else npArrayEqualVal a b

/-- The body of `StingrayObject.__eq__` after its `isinstance` guard (the
guard itself is modelled by `pyEqTagged` below): compare the array- and
meta-attribute name sets, then every meta, array and internal-array value. -/
def tsEqBool (a b : TS) : Bool :=
  listSetEq a.array_attrs b.array_attrs &&
  listSetEq a.meta_attrs b.meta_attrs &&
  a.meta_attrs.all (fun n => metaValEq (a.getAttr n) (b.getAttr n)) &&
  a.array_attrs.all (fun n => npArrayEqualVal (a.getAttr n) (b.getAttr n)) &&
  a.internal_array_attrs.all (fun n => npArrayEqualVal (a.getAttr n) (b.getAttr n))

/-- A `StingrayObject` together with its concrete Python type.  Within the
provided source the only instantiable class is `StingrayTimeseries` (bare
`StingrayObject.__init__` raises for lack of `main_array_attr`), so
`isinstance(other, type(self))` coincides with concrete-type equality of
the tags. -/
structure TaggedTS where
  tag : String
  ts : TS
deriving DecidableEq

/-- `StingrayObject.__eq__` including its `isinstance` guard: comparing
against an object of another concrete type raises `ValueError`. -/
def pyEqTagged (a b : TaggedTS) : Except String Bool :=
  if b.tag = a.tag then .ok (tsEqBool a.ts b.ts)
  else .error "ValueError: can only be compared with an object of the same type"

/-- An Astropy `Table` as the round-trip sees it: ordered named columns of
equal leading length plus a named metadata mapping. -/
structure ATable where
  cols : List (String × AttrVal)
  meta : List (String × AttrVal)
deriving DecidableEq

/-- `len(table)`: the number of rows, i.e. the common column length
(`0` for a table with no columns). -/
def ATable.rowCount (t : ATable) : Nat :=
  match t.cols with
  | [] => 0
  | c :: _ => (c.2.leadingLen).getD 0

/-- `StingrayObject.to_astropy_table()`: array, main and internal-array
attributes become columns (in that order), `get_meta_dict()` becomes the
table metadata. -/
def TS.toAstropyTable (ts : TS) : ATable :=
  { cols := (ts.array_attrs ++ ["time"] ++ ts.internal_array_attrs).filterMap
      (fun n => (ts.getAttr n).map (fun v => (n, v))),
    meta := ts.get_meta_dict }

/-- `StingrayObject.from_astropy_table(ts)`: an empty table yields a fresh
default object; otherwise the first column whose lowercased name is the
main attribute is set first (through the `time` setter), every other column
is `setattr`-ed under its lowercased name, then every metadata entry is
`setattr`-ed under its lowercased key. -/
def fromAstropyTable (t : ATable) : TS :=
  if t.rowCount = 0 then {}
  else
    let ts1 : TS := match t.cols.find? (fun c => c.1.toLower == "time") with
      | some c => TS.setAttr {} "time" (some c.2)
      | none => {}
    let ts2 := t.cols.foldl (fun acc c =>
      if c.1.toLower == "time" then acc
      else acc.setAttr c.1.toLower (some c.2)) ts1
    t.meta.foldl (fun acc m => acc.setAttr m.1.toLower (some m.2)) ts2

/-- `sqsum(a, b) = sqrt(a² + b²)` from `base.py`, pointwise.  The source
computes a floating-point square root; `Rat.sqrt` (the rounded rational
square root) stands in.  No claim in this development evaluates an error
propagation result, so the rounding is never observed. -/
def sqsum (a b : ℚ) : ℚ := Rat.sqrt (a ^ 2 + b ^ 2)

/-- `np.array_equal` on the two `time` arrays (`None` equals `None`). -/
def npArrayEqualTime : Option (List ℚ) → Option (List ℚ) → Bool
  | none, none => true
  | some v, some w => v == w
  | _, _ => false

/-- Pointwise application of a binary ufunc to two attribute values, with
numpy's failure modes: a missing attribute raises `AttributeError`, a
shape mismatch raises `ValueError`. -/
def applyBinOp (op : ℚ → ℚ → ℚ) :
    Option AttrVal → Option AttrVal → Except String AttrVal
  | some (.arr a), some (.arr b) =>
    if a.length = b.length then .ok (.arr (List.zipWith op a b))
    else .error "ValueError: operands could not be broadcast together"
  | some (.mat a), some (.mat b) =>
    if a.length = b.length then
      .ok (.mat (List.zipWith (fun p q => (op p.1 q.1, op p.2 q.2)) a b))
    else .error "ValueError: operands could not be broadcast together"
  | some _, some _ => .error "TypeError: unsupported operand kinds"
  | _, _ => .error "AttributeError: missing operand attribute"

/-- The message of the `ValueError` raised by
`StingrayObject._operation_with_other_obj` when the main arrays differ. -/
def mainValuesDifferMsg : String :=
  "ValueError: The values of time are different in the two objects."

/-- `StingrayObject._operation_with_other_obj` (the base-class helper), as
invoked from the timeseries layer: default `operated_attrs` (array attrs
not ending in `_err`) and `error_attrs` (those that do), `inplace=False`.
The main array must be `np.array_equal` in the two objects (`ValueError`
otherwise); the result is a fresh object holding `self`'s main array and
deep-copied meta attributes, with each operated/error attribute set to the
pointwise combination. -/
def TS.baseOpWithOther (x y : TS) (op errOp : ℚ → ℚ → ℚ) : Except String TS :=
  let operatedAttrs := x.array_attrs.filter (fun n => !n.endsWith "_err")
  let errorAttrs := x.array_attrs.filter (fun n => n.endsWith "_err")
  if !npArrayEqualTime x._time y._time then .error mainValuesDifferMsg
  else
    let ts1 := TS.setAttr {} "time" (x._time.map .arr)
    let ts2 := x.meta_attrs.foldl (fun acc n => acc.setAttr n (x.getAttr n)) ts1
    (operatedAttrs ++ errorAttrs).foldlM (fun acc n => do
      let f := if n.endsWith "_err" then errOp else op
      let v ← applyBinOp f (x.getAttr n) (y.getAttr n)
      pure (acc.setAttr n (some v))) ts2

/-- `StingrayTimeseries.shift(time_shift)` (functionally): translate `time`
through the property setter and, when materialized, `_gti` directly.
A `None` time would raise in the source; the modelled callers never shift
an empty series, and the model returns the object unchanged there. -/
def TS.shiftTs (ts : TS) (delta : ℚ) : TS :=
  let ts1 := match ts._time with
    | some l => { ts with _time := setTimesNorm (some (l.map (fun q => q + delta))) }
    | none => ts
  match ts1._gti with
  | some g => { ts1 with _gti := some (g.map (fun p => (p.1 + delta, p.2 + delta))) }
  | none => ts1

/-- `StingrayTimeseries.change_mjdref(new_mjdref)` (non-inplace):
shift by `(mjdref - new_mjdref) * 86400` and update the reference. -/
def TS.changeMjdref (ts : TS) (newRef : ℚ) : TS :=
  let r := ts.shiftTs ((ts.mjdref - newRef) * 86400)
  { r with mjdref := newRef }

/-- Result of a timeseries binary operation, together with the two warnings
the source can emit on the way (`warnings.warn` calls). -/
structure OpResult where
  ts : TS
  warnedMjdref : Bool
  warnedGti : Bool
deriving DecidableEq

/-- `StingrayTimeseries._operation_with_other_obj`: reconcile a differing
`mjdref` (convert `other`, with a warning); on differing GTIs warn, build
the common GTI, filter both series through `apply_gtis` (whose default
`inplace=True` mutates them in Python), and recurse.  The recursion is
unfolded once here: the filtered pair has `_gti` equal to the common GTI
on both sides and equal `mjdref`, so the recursive call provably takes the
base branch — the unfolding is exact.  A `None` GTI on exactly one side
would make `cross_two_gtis` raise (`TypeError`). -/
def TS.tsOpWithOther (x y : TS) (op errOp : ℚ → ℚ → ℚ) :
    Except String OpResult := do
  let (y, warnedM) :=
    if x.mjdref != y.mjdref then (y.changeMjdref x.mjdref, true) else (y, false)
  if x.gti != y.gti then
    match x.gti, y.gti with
    | some gx, some gy =>
      let common := crossTwoGtis gx gy
      let mx ← x.applyGtis (some common) true
      let my ← y.applyGtis (some common) true
      let r ← mx.baseOpWithOther my op errOp
      pure ⟨r, warnedM, true⟩
    | _, _ => throw "TypeError: GTI is None"
  else do
    let r ← x.baseOpWithOther y op errOp
    pure ⟨r, warnedM, false⟩

/-- `ts1 + ts2` (`__add__`, via `add`): `np.add` with `sqsum` error
propagation. -/
def tsAdd (x y : TS) : Except String OpResult :=
  x.tsOpWithOther y (fun a b => a + b) sqsum

/-- `ts1 - ts2` (`__sub__`, via `sub`): `np.subtract` with `sqsum` error
propagation. -/
def tsSub (x y : TS) : Except String OpResult :=
  x.tsOpWithOther y (fun a b => a - b) sqsum

/-- `StingrayTimeseries._truncate_by_index(start, stop)`: slice through
`apply_mask`, then intersect the GTIs with the sample-centred span of the
surviving time stamps and store the result through the `gti` setter.
An empty surviving time array would make `new_ts.time[0]` raise
`IndexError`; a `None` GTI would make `cross_two_gtis` raise. -/
def TS.truncateByIndex (ts : TS) (start : Int) (stop : Option Int) :
    Except String TS := do
  let newTs := ts.applyMask (.sliceIdx (some start) stop) false none
  match newTs._time with
  | none => throw "IndexError: index 0 is out of bounds"
  | some [] => throw "IndexError: index 0 is out of bounds"
  | some t =>
    match ts.gti with
    | none => throw "TypeError: GTI is None"
    | some g =>
      let win := [(t.headD 0 - ts.dt / 2, t.getLastD 0 + ts.dt / 2)]
      let newGti := crossTwoGtis g win
      pure (newTs.setAttr "gti" (some (.mat newGti)))

/-- `StingrayTimeseries._truncate_by_time(start, stop)`: reject
`start > stop`, binary-search the bounds into indices (a `start` of `0` is
used as an index directly), delegate to index truncation.  A `None` time
would raise `AttributeError` on `.searchsorted`. -/
def TS.truncateByTime (ts : TS) (start : ℚ) (stop : Option ℚ) :
    Except String TS := do
  if h : stop.isSome then
    if start > stop.get h then throw "ValueError: start time must be less than stop time!"
  match ts._time with
  | none => throw "AttributeError: time is None"
  | some t =>
    let startIdx : Int := if start = 0 then 0 else (searchsortedQ t start : Int)
    let stopIdx : Option Int := stop.map (fun s => (searchsortedQ t s : Int))
    ts.truncateByIndex startIdx stopIdx

/-- `StingrayTimeseries.truncate(start, stop, method)`: dispatch on the
method string, then record `tstart`/`tseg` from the new GTI.  The claims
exercise integer `start`/`stop` values only, so the argument is an `Int`
(used as an index by `"index"` and as a time stamp by `"time"`). -/
def TS.truncateTs (ts : TS) (start : Int) (stop : Option Int) (method : String) :
    Except String TS := do
  if method.toLower != "index" && method.toLower != "time" then
    throw "ValueError: Unknown method type"
  let newTs ←
    if method.toLower = "index" then ts.truncateByIndex start stop
    else ts.truncateByTime (start : ℚ) (stop.map (fun s => (s : ℚ)))
  match newTs._gti with
  | none => throw "TypeError: GTI is None"
  | some [] => throw "IndexError: GTI is empty"
  | some (g0 :: gs) =>
    let gl := (g0 :: gs).getLastD g0
    let r := newTs.setAttr "tstart" (some (.scal g0.1))
    pure (r.setAttr "tseg" (some (.scal (gl.2 - g0.1))))

/-- Numeric view of an attribute value for rebinning (`c_temp` in the
source): numeric arrays as-is, bool arrays as 0/1 (numpy sums booleans
numerically).  Rebinning an (n,2) array is not exercised by any claim; the
first components stand in. -/
def attrValNums : AttrVal → List ℚ
  | .arr xs => xs
  | .barr xs => xs.map (fun b => if b then 1 else 0)
  | .mat xs => xs.map Prod.fst
  | .scal q => [q]
  | .vstr _ => []

/-- Modelled from the spec: `rebin_data` of the missing `stingray.utils`
module.  Spec section 4.3 (`rebin`): "resamples `time` and each non-error
array attribute into fixed-width bins via sum/mean aggregation;
corresponding `_err` attributes are propagated in quadrature", with the
last partial bin cut off.  Only the shapes of the outputs are ever
observed by the claims (the failure analysis of `rebin` does not depend on
the binned values). -/
def rebinData (t c : List ℚ) (dtNew : ℚ) (errs : Option (List ℚ)) :
    List ℚ × List ℚ × List ℚ :=
  match t with
  | [] => ([], [], [])
  | t0 :: _ =>
    let tl := t.getLastD t0
    let nb := (((tl - t0) / dtNew).floor).toNat
    let inBin := fun (j : Nat) (x : ℚ) =>
      decide (t0 + (j : ℚ) * dtNew ≤ x) && decide (x < t0 + ((j : ℚ) + 1) * dtNew)
    let binT := (List.range nb).map (fun j => t0 + ((j : ℚ) + 1 / 2) * dtNew)
    let binC := (List.range nb).map (fun j =>
      ((t.zip c).filter (fun p => inBin j p.1)).foldl (fun s p => s + p.2) 0)
    let binE := (List.range nb).map (fun j =>
      match errs with
      | none => 0
      | some es =>
        Rat.sqrt (((t.zip es).filter (fun p => inBin j p.1)).foldl
          (fun s p => s + p.2 ^ 2) 0))
    (binT, binC, binE)

/-- Accumulator of the rebin loops: the per-attribute bin lists, the
globally accumulated new GTI list (`gti_new` in the source is shared
across the attribute loop), and whether `e_temp` has been set. -/
structure RebinAcc where
  binT : List ℚ
  binC : List ℚ
  binE : List ℚ
  gtiNew : List (ℚ × ℚ)
  sawErr : Bool
deriving DecidableEq

/-- Inner loop of `rebin` over one GTI segment: segments shorter than the
new spacing are skipped; otherwise the segment's samples are located by
`searchsorted`, rebinned, and the segment is appended to `gti_new`. -/
def rebinSegStep (ts : TS) (t : List ℚ) (attr : String) (dtNew : ℚ)
    (acc : RebinAcc) (g : ℚ × ℚ) : RebinAcc :=
  if g.2 - g.1 < dtNew then acc
  else
    let si := searchsortedQ t g.1
    let ei := searchsortedQ t g.2
    let tTemp := (t.take ei).drop si
    let cTemp := ((attrValNums ((ts.getAttr attr).getD (.arr []))).take ei).drop si
    let hasErr := (ts.getAttr (attr ++ "_err")).isSome
    let eTemp :=
      if hasErr then
        some (((attrValNums ((ts.getAttr (attr ++ "_err")).getD (.arr []))).take ei).drop si)
      else none
    let r := rebinData tTemp cTemp dtNew eTemp
    { binT := acc.binT ++ r.1, binC := acc.binC ++ r.2.1, binE := acc.binE ++ r.2.2,
      gtiNew := acc.gtiNew ++ [g], sawErr := acc.sawErr || hasErr }

/-- One step of `rebin`'s attribute loop: `_err` attributes are skipped,
every other attribute is rebinned per GTI segment; the first attribute to
produce bins also sets the new time axis. -/
def rebinAttrStep (ts : TS) (t : List ℚ) (segs : List (ℚ × ℚ)) (dtNew : ℚ)
    (st : TS × List (ℚ × ℚ)) (attr : String) : TS × List (ℚ × ℚ) :=
  if attr.endsWith "_err" then st
  else
    let a := segs.foldl (rebinSegStep ts t attr dtNew)
      { binT := [], binC := [], binE := [], gtiNew := st.2, sawErr := false }
    let nts := st.1
    let nts := if nts._time = none then nts.setAttr "time" (some (.arr a.binT)) else nts
    let nts := nts.setAttr attr (some (.arr a.binC))
    let nts := if a.sawErr then nts.setAttr (attr ++ "_err") (some (.arr a.binE)) else nts
    (nts, a.gtiNew)

/-- `StingrayTimeseries.rebin(dt_new, f, method)` (with the default `"sum"`
method): exactly the argument validation, the two-level loop, the
"no valid GTIs" check, the new-GTI write, and the meta copy (which,
iterating `meta_attrs()`, includes `"gti"` and therefore overwrites the
just-written GTI with a copy of the original — faithful to the source) of
the source; finally `dt` is replaced by the new spacing. -/
def TS.rebin (ts : TS) (dtNew0 f : Option ℚ) : Except String TS := do
  let dtNew ← match f, dtNew0 with
    | none, none => throw "ValueError: You need to specify at least one between f and dt_new"
    | some fv, _ => pure (fv * ts.dt)
    | none, some d => pure d
  if dtNew < ts.dt then
    throw "ValueError: The new time resolution must be larger than the old one!"
  let segs ← match ts.gti with
    | some g => pure g
    | none => throw "TypeError: GTI is None"
  let t ← match ts._time with
    | some t => pure t
    | none => throw "AttributeError: time is None"
  let attrs := ts.array_attrs ++ ts.internal_array_attrs
  let st := attrs.foldl (rebinAttrStep ts t segs dtNew) (({} : TS), [])
  if st.2.length = 0 then throw "ValueError: No valid GTIs after rebin."
  let nts := st.1.setAttr "gti" (some (.mat st.2))
  let nts := ts.meta_attrs.foldl (fun acc n =>
    if n = "dt" then acc else acc.setAttr n (ts.getAttr n)) nts
  pure { nts with dt := dtNew }

/-- The emptiness test of `_join_timeseries`:
`getattr(obj, "time", None) is None or np.size(obj.time) == 0`. -/
def isEmptyTs (ts : TS) : Bool :=
  ts._time.isNone || (ts._time.getD []).length == 0

/-- Python `list.remove(obj)`: delete the first element comparing equal to
`obj` (CPython short-circuits on identity before calling `__eq__`; both
routes agree with `tsEqBool` here, which is true on identical values). -/
def removeFirstEqTs : List TS → TS → List TS
  | [], _ => []
  | x :: xs, o => if tsEqBool x o then xs else x :: removeFirstEqTs xs o

/-- The empty-input dropping loop of `_join_timeseries`, with Python's
exact iteration semantics over a list mutated by `remove`: the iterator
index advances every step regardless of removals (so removing the element
under the cursor shifts the next element past the cursor unvisited).
The fuel (`the initial length`) dominates the iteration count: the cursor
grows by one per step and the list never grows.  Returns the surviving
list and the number of "empty" warnings emitted. -/
def dropEmptyLoopGo : Nat → List TS → Nat → Nat → List TS × Nat
  | 0, l, _, w => (l, w)
  | fuel + 1, l, k, w =>
    if h : k < l.length then
      let obj := l.get ⟨k, h⟩
      if isEmptyTs obj then dropEmptyLoopGo fuel (removeFirstEqTs l obj) (k + 1) (w + 1)
      else dropEmptyLoopGo fuel l (k + 1) w
    else (l, w)

/-- The empty-input dropping phase of `_join_timeseries` over the `others`
list (lines 1806-1813 of `base.py`, minus the type check, which all
modelled inputs pass). -/
def dropEmptyLoop (l : List TS) : List TS × Nat :=
  dropEmptyLoopGo l.length l 0 0

/-- A numpy array with its buffer identity, for the aliasing analysis of
claim C1: `buf` is the identity of the underlying memory buffer (views
produced by basic slicing share it; `np.add`, fancy indexing and
`copy.deepcopy` allocate a fresh one). -/
structure NArr where
  buf : Nat
  data : List ℚ
deriving DecidableEq

/-- A minimal object for the aliasing analysis: the main `time` array and
one array attribute `counts`, plus a scalar meta attribute.  Scalar meta
attributes and the GTI play no role in the claim about array buffers (the
meta attributes are `copy.deepcopy`-ed fresh in all three modelled
operations). -/
structure ATs where
  timeArr : NArr
  countsArr : NArr
  mjdref : ℚ
deriving DecidableEq

/-- The buffer identities owned by an object. -/
def ATs.bufs (x : ATs) : List Nat := [x.timeArr.buf, x.countsArr.buf]

/-- Buffer-level reading of `StingrayObject._operation_with_other_obj`
(`inplace=False`): after the `np.array_equal` check on the main arrays,
`setattr(ts_new, "time", this_time)` stores `self`'s own time array in the
result — the `np.asarray` calls inside `_check_value_size` and `_set_times`
return an ndarray argument unchanged, so no copy is made — while the
operated attribute gets the fresh buffer `np.add` allocates and scalar
meta attributes are value-copied. -/
def baseOpAlias (x y : ATs) (op : ℚ → ℚ → ℚ) (fresh : Nat) :
    Except String (ATs × Nat) :=
  if x.timeArr.data ≠ y.timeArr.data then .error mainValuesDifferMsg
  else .ok
    ({ timeArr := x.timeArr,
       countsArr := ⟨fresh, List.zipWith op x.countsArr.data y.countsArr.data⟩,
       mjdref := x.mjdref }, fresh + 1)

/-- Buffer-level reading of `StingrayObject.__getitem__` with a slice:
`getattr(self, attr)[start:stop]` is numpy basic slicing, which returns a
view sharing the original buffer, for the array attributes and (through
the `time` setter's copy-free `np.asarray`) for the main array alike. -/
def getitemAliasSlice (x : ATs) (start stop : Option Int) : ATs :=
  { timeArr := ⟨x.timeArr.buf, pySlice x.timeArr.data start stop⟩,
    countsArr := ⟨x.countsArr.buf, pySlice x.countsArr.data start stop⟩,
    mjdref := x.mjdref }

/-- Buffer-level reading of `StingrayObject.apply_mask` with
`inplace=False`: every filtered array is
`copy.deepcopy(np.asarray(...)[mask])`, a fresh buffer. -/
def applyMaskAlias (x : ATs) (mask : List Bool) (fresh : Nat) : ATs × Nat :=
  ({ timeArr := ⟨fresh, applyIdxList x.timeArr.data (.boolMask mask)⟩,
     countsArr := ⟨fresh + 1, applyIdxList x.countsArr.data (.boolMask mask)⟩,
     mjdref := x.mjdref }, fresh + 2)

/-- Concrete input for the C1 counterexample: a series with
`time = [1,2,3]` (buffer 0) and `counts = [10,20,30]` (buffer 1). -/
def exC1x : ATs := ⟨⟨0, [1, 2, 3]⟩, ⟨1, [10, 20, 30]⟩, 0⟩

/-- Second operand for the C1 counterexample: the same time values in a
distinct buffer. -/
def exC1y : ATs := ⟨⟨2, [1, 2, 3]⟩, ⟨3, [4, 5, 6]⟩, 0⟩

/-- Concrete input for C2: `time = [1,2,3,4]`, explicit `gti = [[0,5]]`. -/
def exC2 : TS := { _time := some [1, 2, 3, 4], _gti := some [(0, 5)] }

/-- The GTI supplied to `apply_gtis` in the C2 counterexample. -/
def exC2g : List (ℚ × ℚ) := [(0, 5 / 2)]

/-- First operand of the spec's concrete addition scenario (C3). -/
def exC3x : TS :=
  { _time := some [5, 10, 15], _gti := some [(0, 20)], dt := 5,
    extra := [("counts", .arr [300, 100, 400])] }

/-- Second operand of the spec's concrete addition scenario (C3). -/
def exC3y : TS :=
  { _time := some [5, 10, 15], _gti := some [(0, 25)], dt := 5,
    extra := [("counts", .arr [600, 1200, 800])] }

/-- Concrete input for the C4 counterexample: a non-empty series with a
capitalized array-attribute name. -/
def exC4 : TS := { _time := some [1, 2], extra := [("Counts", .arr [3, 4])] }

/-- Concrete input for the C4 witness: a non-empty series with lowercase
attribute names of every kind (array, error, string meta, array meta,
internal array, and a private scalar that the round trip silently drops
without breaking equality). -/
def exC4w : TS :=
  { _time := some [1, 2], _gti := some [(0, 3)], dt := 1, notes := "n",
    extra := [("counts", .arr [3, 4]), ("counts_err", .arr [1, 1]),
              ("mission", .vstr "nustar"), ("_phase", .arr [7, 8]),
              ("bkg", .arr [1, 2, 3]), ("_junk", .scal 5)] }

/-- First operand for the C5 counterexample: `time = [1,2,3]`,
`gti = [[0, 3.5]]`. -/
def exC5x : TS :=
  { _time := some [1, 2, 3], _gti := some [(0, 7 / 2)],
    extra := [("counts", .arr [10, 20, 30])] }

/-- Second operand for the C5 counterexample: a different time array
(`[1,2,4]`) and a different GTI (`[[0, 2.5]]`), chosen so that filtering
both series to the common GTI leaves identical time arrays. -/
def exC5y : TS :=
  { _time := some [1, 2, 4], _gti := some [(0, 5 / 2)],
    extra := [("counts", .arr [1, 2, 3])] }

/-- First operand for the C5 witness: `time = [1,2]` with an explicit GTI. -/
def exC5wx : TS := { _time := some [1, 2], _gti := some [(0, 3)] }

/-- Second operand for the C5 witness: the same GTI, a differing time. -/
def exC5wy : TS := { _time := some [1, 3], _gti := some [(0, 3)] }

/-- First empty input for C6 (an empty series with an explicit GTI). -/
def exC6e1 : TS := { _gti := some [(100, 200)], notes := "a" }

/-- Second empty input for C6, distinguishable from the first. -/
def exC6e2 : TS := { _gti := some [(100, 200)], notes := "b" }

/-- The non-empty input for C6. -/
def exC6full : TS := { _time := some [1, 2] }

/-- Concrete input for the C7 counterexample: one GTI segment of length
exactly 4 (so no segment is longer than the requested spacing 4). -/
def exC7 : TS :=
  { _time := some [1, 2, 3, 4], dt := 1, _gti := some [(1 / 2, 9 / 2)],
    extra := [("counts", .arr [1, 1, 1, 1])] }

/-- Input for the C7 witness (new spacing smaller than current). -/
def exC7b : TS := { _time := some [1, 2], dt := 1 }

/-- Input for the C7 witness (every GTI segment strictly shorter than the
requested spacing). -/
def exC7c : TS :=
  { _time := some [1, 2], dt := 1, _gti := some [(0, 1)],
    extra := [("counts", .arr [2, 3])] }

/-- The spec's concrete truncation scenario input (C8):
`time = [1..9]`, `counts = [10,20,...,90]`, `dt = 1`. -/
def exC8 : TS :=
  { _time := some [1, 2, 3, 4, 5, 6, 7, 8, 9], dt := 1,
    extra := [("counts", .arr [10, 20, 30, 40, 50, 60, 70, 80, 90])] }

/-- Concrete input for the C9 counterexample: any series with a time array
(so that the `_time` backing field is a data attribute). -/
def exC9 : TS := { _time := some [1, 2] }

/-- Concrete input for the C9 witness. -/
def exC9w : TS := { _time := some [1, 2], extra := [("counts", .arr [3, 4])] }

/-- Predicate on an `extra` entry for being a public meta attribute of a
series whose time has length `tlen`: public name, not an array attribute.
(Derived classifier used by the round-trip analysis; a public entry is
never an internal array attribute.) -/
def metaPublicPred (tlen : Nat) (p : String × AttrVal) : Bool :=
  !p.1.startsWith "_" && !(arrayAttrPred tlen p)

/-! Theorems settling the claims. -/

/-- Claim C1, counterexample: the non-inplace arithmetic helper returns an
object whose main (`time`) array is `x`'s own buffer (buffer 0), and a
slice returns an object whose `counts` array shares `x`'s buffer — so a
non-inplace operation's result does alias `x`'s array buffers, contrary to
the claim. -/
theorem c1_aliasing_counterexample :
    (baseOpAlias exC1x exC1y (fun a b => a + b) 100).toOption.map
        (fun p => p.1.timeArr.buf) = some exC1x.timeArr.buf ∧
    (getitemAliasSlice exC1x (some 0) (some 2)).countsArr.buf =
        exC1x.countsArr.buf ∧
    exC1x.timeArr.buf ∈ exC1x.bufs := by
  refine ⟨rfl, rfl, ?_⟩
  decide

/-- Claim C1, amended: `apply_mask` with `inplace=False` does return an
object whose array buffers are fresh (disjoint from every buffer of `x`),
for every object, mask and fresh-buffer supply. -/
theorem c1_apply_mask_fresh_buffers (x : ATs) (mask : List Bool) (fresh : Nat)
    (h : ∀ b ∈ x.bufs, b < fresh) :
    ∀ b ∈ ((applyMaskAlias x mask fresh).1).bufs, b ∉ x.bufs := by
  intro b hb hbx
  have hlt := h b hbx
  simp [applyMaskAlias, ATs.bufs] at hb
  rcases hb with h1 | h1 <;> omega

/-- Witness for `c1_apply_mask_fresh_buffers` at a concrete input. -/
theorem c1_apply_mask_fresh_buffers_witness :
    ((applyMaskAlias exC1x [true, false, true] 100).1).timeArr.buf ∉
      exC1x.bufs :=
  c1_apply_mask_fresh_buffers exC1x [true, false, true] 100 (by decide)
    ((applyMaskAlias exC1x [true, false, true] 100).1).timeArr.buf
    (by with_unfolding_all decide)

/-- Claim C2, counterexample: `apply_gtis` on `exC2` with the valid GTI
`[[0, 2.5]]` and `inplace=False` returns an object whose `gti` is the
original `[[0, 5]]`, not the supplied value. -/
theorem c2_counterexample :
    gtisValid exC2g = true ∧
    (exC2.applyGtis (some exC2g) false).toOption.map TS._gti =
      some (some [(0, 5)]) ∧
    some [((0 : ℚ), 5)] ≠ some exC2g := by
  refine ⟨by with_unfolding_all rfl, by with_unfolding_all rfl, ?_⟩
  with_unfolding_all decide

/-- A `setattr` under any name other than `gti`/`_gti` leaves the `_gti`
backing field untouched (the `time`-setter branch clears array attributes
and the mask cache, never the GTI cache). -/
theorem setAttr_gti_eq (ts : TS) (n : String) (v : Option AttrVal)
    (h1 : n ≠ "gti") (h2 : n ≠ "_gti") : (ts.setAttr n v)._gti = ts._gti := by
  unfold TS.setAttr TS.clearArrayAttrs
  split_ifs <;>
    first
      | (exact absurd (by assumption) h1)
      | (exact absurd (by assumption) h2)
      | (cases v with
          | none => rfl
          | some w => cases w <;> rfl)

/-- Folding `setattr` over names avoiding `gti`/`_gti` preserves `_gti`. -/
theorem foldl_setAttr_gti_eq (l : List String) (f : String → Option AttrVal)
    (ts : TS) (h : ∀ n ∈ l, n ≠ "gti" ∧ n ≠ "_gti") :
    (l.foldl (fun acc n => acc.setAttr n (f n)) ts)._gti = ts._gti := by
  induction l generalizing ts with
  | nil => rfl
  | cons a as ih =>
    simp only [List.foldl_cons]
    rw [ih (ts.setAttr a (f a)) (fun n hn => h n (List.mem_cons_of_mem a hn))]
    exact setAttr_gti_eq ts a (f a) (h a (List.mem_cons_self a as)).1
      (h a (List.mem_cons_self a as)).2

/-- Every name listed by `internal_array_attrs ++ array_attrs` differs from
both `gti` and `_gti`: the array predicate excludes `not_array_attr` names
and private names, the internal predicate excludes `"_" + not_array_attr`
names. -/
theorem allAttrs_ne_gti (ts : TS) :
    ∀ n ∈ ts.internal_array_attrs ++ ts.array_attrs, n ≠ "gti" ∧ n ≠ "_gti" := by
  intro n hn
  rcases List.mem_append.mp hn with h | h
  · unfold TS.internal_array_attrs at h
    split at h
    · simp at h
    · rcases List.mem_append.mp h with h | h
      · have hnm : n = "_mask" := by
          revert h
          split
          · split
            · intro h; simpa using h
            · intro h; simp at h
          · intro h; simp at h
        subst hnm
        exact ⟨by decide, by decide⟩
      · simp only [List.mem_map] at h
        obtain ⟨p, hp, hpn⟩ := h
        have hpred := List.of_mem_filter hp
        subst hpn
        unfold internalAttrPred at hpred
        simp only [Bool.and_eq_true] at hpred
        constructor
        · intro he
          rw [he] at hpred
          exact absurd hpred.1.1.1.1.1 (by with_unfolding_all decide)
        · intro he
          rw [he] at hpred
          exact absurd hpred.1.1.1.2 (by with_unfolding_all decide)
  · unfold TS.array_attrs at h
    split at h
    · simp at h
    · simp only [List.mem_map] at h
      obtain ⟨p, hp, hpn⟩ := h
      have hpred := List.of_mem_filter hp
      subst hpn
      unfold arrayAttrPred at hpred
      simp only [Bool.and_eq_true] at hpred
      constructor
      · intro he
        rw [he] at hpred
        exact absurd hpred.1.2 (by with_unfolding_all decide)
      · intro he
        rw [he] at hpred
        exact absurd hpred.1.1.1 (by with_unfolding_all decide)

/-- The `gti` value of a fresh non-inplace `apply_mask` result equals the
source object's (lazily derived) `gti`: the meta-copy loop writes it last
through the `gti` setter, and the later array writes never touch it. -/
theorem applyMask_noninplace_gti (ts : TS) (idx : PyIndex) :
    (ts.applyMask idx false none)._gti = ts.gti := by
  unfold TS.applyMask
  simp only
  rw [foldl_setAttr_gti_eq _ _ _ (allAttrs_ne_gti ts)]
  unfold TS.meta_attrs
  simp only
  rw [List.foldl_append]
  simp only [List.foldl_cons, List.foldl_nil, notArrayAttr]
  have hstep : ∀ x : TS, (x.setAttr "gti" (ts.getAttr "gti"))._gti = ts.gti := by
    intro x
    show (x.setAttr "gti" (ts.gti.map .mat))._gti = ts.gti
    cases ts.gti with
    | none => rfl
    | some g => rfl
  exact hstep _

/-- Claim C2, amended: on success, `apply_gtis(g)` has validated `g`,
computed the GTI mask from it and delegated the filtering to `apply_mask`;
the returned object's `gti` equals the supplied value under
`inplace=True`, while with `inplace=False` the new object carries (a deep
copy of) the original object's `gti` instead. -/
theorem c2_apply_gtis_gti_reset (ts r : TS) (g : List (ℚ × ℚ)) (inplace : Bool)
    (h : ts.applyGtis (some g) inplace = .ok r) :
    gtisValid g = true ∧
    (∃ t, ts._time = some t ∧
      r = (if inplace
           then (ts.applyMask (.boolMask (createGtiMask t g ts.dt)) true
             none).setAttr "gti" (some (.mat g))
           else ts.applyMask (.boolMask (createGtiMask t g ts.dt)) false none)) ∧
    (inplace = true → r._gti = some g) ∧
    (inplace = false → r._gti = ts.gti) := by
  unfold TS.applyGtis checkGtis at h
  simp only at h
  cases hv : gtisValid g with
  | false =>
    simp only [hv] at h
    simp at h
  | true =>
    simp only [hv] at h
    simp only [if_true] at h
    cases ht : ts._time with
    | none =>
      simp only [ht] at h
      simp at h
    | some t =>
      simp only [ht] at h
      cases inplace with
      | true =>
        simp only [if_true] at h
        have hr := Except.ok.inj h
        refine ⟨rfl, ⟨t, rfl, by simp [← hr]⟩, ?_, by simp⟩
        intro _
        rw [← hr]
        rfl
      | false =>
        simp only [Bool.false_eq_true, if_false] at h
        have hr := Except.ok.inj h
        refine ⟨rfl, ⟨t, rfl, by simp [← hr]⟩, by simp, ?_⟩
        intro _
        rw [← hr]
        exact applyMask_noninplace_gti ts _

/-- Witness for `c2_apply_gtis_gti_reset` at a concrete input. -/
theorem c2_apply_gtis_gti_reset_witness :
    TS.applyGtis exC2 (some exC2g) true =
      Except.ok { _time := some [1, 2], _gti := some [(0, 5 / 2)] } ∧
    ({ _time := some [1, 2], _gti := some [(0, 5 / 2)] } : TS)._gti =
      some exC2g :=
  ⟨by with_unfolding_all rfl,
   (c2_apply_gtis_gti_reset exC2
     { _time := some [1, 2], _gti := some [(0, 5 / 2)] }
     exC2g true (by with_unfolding_all rfl)).2.2.1 rfl⟩

/-- Claim C3: adding the two concrete series of the spec's scenario 1
(`time=[5,10,15]`, `dt=5`, counts `[300,100,400]` with gti `[[0,20]]` and
counts `[600,1200,800]` with gti `[[0,25]]`) yields counts
`[900,1300,1200]` with no error attribute, emits the differing-GTI warning,
and the result's gti is `[[0,20]]`. -/
theorem c3_add_concrete :
    tsAdd exC3x exC3y = Except.ok
      { ts := { _time := some [5, 10, 15], _gti := some [(0, 20)], dt := 5,
                extra := [("counts", .arr [900, 1300, 1200])] },
        warnedMjdref := false, warnedGti := true } ∧
    (tsAdd exC3x exC3y).toOption.map (fun r => r.ts.getAttr "counts_err") =
      some none := by
  exact ⟨by with_unfolding_all rfl, by with_unfolding_all rfl⟩

/-- Claim C4, counterexample: the non-empty series `exC4`, whose array
attribute is named `"Counts"`, does not round-trip — the importer
lowercases column names, so the reconstructed object's attribute name set
differs and the library's equality returns `False`. -/
theorem c4_counterexample :
    exC4.lenTime ≠ 0 ∧
    tsEqBool (fromAstropyTable exC4.toAstropyTable) exC4 = false := by
  exact ⟨by decide, by with_unfolding_all rfl⟩

/-- Claim C5, counterexample: `exC5x` and `exC5y` have different time
arrays (`[1,2,3]` vs `[1,2,4]`), yet their addition succeeds — because
their GTIs differ, both operands are first filtered to the common GTI
`[[0, 2.5]]`, after which the filtered time arrays coincide (`[1,2]`). -/
theorem c5_counterexample :
    exC5x._time ≠ exC5y._time ∧
    tsAdd exC5x exC5y = Except.ok
      { ts := { _time := some [1, 2], _gti := some [(0, 5 / 2)],
                extra := [("counts", .arr [11, 22])] },
        warnedMjdref := false, warnedGti := true } := by
  exact ⟨by with_unfolding_all decide, by with_unfolding_all rfl⟩

/-- Claim C6: evaluating the empty-input dropping loop of
`_join_timeseries` on `[empty, empty, nonempty]` — the list is mutated
while being iterated, so the second empty series survives the loop and
only one warning is emitted, although the claim requires every empty input
to be dropped (each with a warning). -/
theorem c6_drop_loop_eval :
    dropEmptyLoop [exC6e1, exC6e2, exC6full] = ([exC6e2, exC6full], 1) ∧
    isEmptyTs exC6e2 = true ∧ isEmptyTs exC6full = false := by
  exact ⟨by with_unfolding_all rfl, rfl, rfl⟩

/-- Claim C7, counterexample: `exC7`'s single GTI segment has length
exactly 4, so no segment is longer than the requested new spacing 4
(and 4 is not smaller than `dt = 1`), yet `rebin(4)` succeeds — the
source keeps segments with `g[1] - g[0] == dt_new` (the skip test is
strict `<`), so "no valid GTIs" is not raised. -/
theorem c7_counterexample :
    exC7.gti = some [(1 / 2, 9 / 2)] ∧
    (∀ g ∈ [((1 : ℚ) / 2, (9 : ℚ) / 2)], ¬ (4 : ℚ) < g.2 - g.1) ∧
    exC7.dt ≤ 4 ∧
    (exC7.rebin (some 4) none).isOk = true := by
  refine ⟨by with_unfolding_all rfl, ?_, by with_unfolding_all decide,
    by with_unfolding_all rfl⟩
  with_unfolding_all decide

/-- Claim C8: the spec's concrete truncation scenario.  On
`time=[1..9]`, `counts=[10,20,...,90]`, `dt=1`: `truncate(start=2, stop=8)`
with the default index method yields `time=[3..8]`,
`counts=[30,40,50,60,70,80]`, and `truncate(start=6, method="time")`
yields `time=[6,7,8,9]`, `counts=[60,70,80,90]` (the full result objects,
including the recomputed GTI and the `tstart`/`tseg` bookkeeping, are
spelled out). -/
theorem c8_truncate_concrete :
    exC8.truncateTs 2 (some 8) "index" = Except.ok
      { _time := some [3, 4, 5, 6, 7, 8], _gti := some [(5 / 2, 17 / 2)],
        dt := 1,
        extra := [("counts", .arr [30, 40, 50, 60, 70, 80]),
                  ("tstart", .scal (5 / 2)), ("tseg", .scal 6)] } ∧
    exC8.truncateTs 6 none "time" = Except.ok
      { _time := some [6, 7, 8, 9], _gti := some [(11 / 2, 19 / 2)],
        dt := 1,
        extra := [("counts", .arr [60, 70, 80, 90]),
                  ("tstart", .scal (11 / 2)), ("tseg", .scal 4)] } := by
  exact ⟨by with_unfolding_all rfl, by with_unfolding_all rfl⟩

/-- Claim C9, counterexample: on `exC9` (any series with a time array) the
private backing field `_time` is a data attribute but belongs to none of
the four categories — the classification does not cover all data fields. -/
theorem c9_counterexample :
    "_time" ∈ exC9.dataAttributes ∧
    "_time" ∉ exC9.array_attrs ++ ["time"] ++ exC9.internal_array_attrs
      ++ exC9.meta_attrs := by
  with_unfolding_all decide

/-- Claim C10: `==` on a `StingrayObject` is decided (returns a Boolean)
exactly when the operand's concrete type matches; against any other type
it does not return `False` but raises a `ValueError`. -/
theorem c10_eq_type_check (a b : TaggedTS) :
    ((pyEqTagged a b).isOk ↔ b.tag = a.tag) ∧
    (b.tag ≠ a.tag → pyEqTagged a b =
      .error "ValueError: can only be compared with an object of the same type") := by
  unfold pyEqTagged
  constructor
  · constructor
    · intro h
      by_contra hne
      rw [if_neg hne] at h
      simp [Except.isOk, Except.toBool] at h
    · intro he
      rw [if_pos he]
      rfl
  · intro hne
    rw [if_neg hne]

/-- Witness for `c10_eq_type_check` at concrete inputs of different tags. -/
theorem c10_eq_type_check_witness :
    pyEqTagged ⟨"StingrayTimeseries", exC9⟩ ⟨"EventList", exC9⟩ =
      .error "ValueError: can only be compared with an object of the same type" :=
  (c10_eq_type_check ⟨"StingrayTimeseries", exC9⟩ ⟨"EventList", exC9⟩).2
    (by decide)

/-- The base-class operation helper fails with the time-mismatch
`ValueError` exactly on the branch where `np.array_equal` on the two main
arrays is false; success implies the main arrays were equal. -/
theorem baseOp_time_check (x y : TS) (op errOp : ℚ → ℚ → ℚ) :
    ((x.baseOpWithOther y op errOp).isOk = true →
      npArrayEqualTime x._time y._time = true) ∧
    (npArrayEqualTime x._time y._time = false →
      x.baseOpWithOther y op errOp = .error mainValuesDifferMsg) := by
  unfold TS.baseOpWithOther
  cases he : npArrayEqualTime x._time y._time with
  | false => simp [Except.isOk, Except.toBool]
  | true => simp

/-- Claim C5, amended: when the two operands agree on `mjdref` and on their
(lazily derived) GTIs — so that no GTI reconciliation rewrites the
operands — a binary arithmetic operation succeeds only if the two time
arrays are `np.array_equal`, and fails with the time-mismatch `ValueError`
whenever they differ in any element or in length.  (With differing GTIs
the operands are first filtered to the common GTI, and the operation can
succeed although the original time arrays differ: `c5_counterexample`.) -/
theorem c5_time_identity (x y : TS) (op errOp : ℚ → ℚ → ℚ)
    (hm : x.mjdref = y.mjdref) (hg : x.gti = y.gti) :
    ((x.tsOpWithOther y op errOp).isOk = true →
      npArrayEqualTime x._time y._time = true) ∧
    (npArrayEqualTime x._time y._time = false →
      x.tsOpWithOther y op errOp = .error mainValuesDifferMsg) := by
  have hbase : x.tsOpWithOther y op errOp =
      (x.baseOpWithOther y op errOp).bind
        (fun r => pure { ts := r, warnedMjdref := false, warnedGti := false }) := by
    unfold TS.tsOpWithOther
    simp [hm, hg]
    cases x.baseOpWithOther y op errOp <;> rfl
  rw [hbase]
  constructor
  · intro h
    apply (baseOp_time_check x y op errOp).1
    cases hb : x.baseOpWithOther y op errOp with
    | error e => rw [hb] at h; simp [Except.bind, Except.isOk, Except.toBool] at h
    | ok r => rfl
  · intro hne
    rw [(baseOp_time_check x y op errOp).2 hne]
    rfl

/-- Witness for `c5_time_identity` at concrete inputs: equal GTIs,
differing time arrays, the operation fails with the `ValueError`. -/
theorem c5_time_identity_witness :
    TS.tsOpWithOther exC5wx exC5wy (fun a b => a + b) sqsum =
      .error mainValuesDifferMsg :=
  (c5_time_identity exC5wx exC5wy (fun a b => a + b) sqsum rfl
    (by with_unfolding_all rfl)).2 (by with_unfolding_all rfl)

/-- The inner rebin loop is the identity when every GTI segment is
strictly shorter than the new spacing. -/
theorem rebinSegFold_short (ts : TS) (t : List ℚ) (attr : String) (d : ℚ)
    (segs : List (ℚ × ℚ)) (h : ∀ g ∈ segs, g.2 - g.1 < d) (acc : RebinAcc) :
    segs.foldl (rebinSegStep ts t attr d) acc = acc := by
  induction segs generalizing acc with
  | nil => rfl
  | cons g gs ih =>
    simp only [List.foldl_cons]
    rw [show rebinSegStep ts t attr d acc g = acc from
      by unfold rebinSegStep; rw [if_pos (h g (List.mem_cons_self g gs))]]
    exact ih (fun g' hg' => h g' (List.mem_cons_of_mem g hg')) acc

/-- The attribute loop of `rebin` never extends `gti_new` when every GTI
segment is strictly shorter than the new spacing. -/
theorem rebinAttrFold_short (ts : TS) (t : List ℚ) (d : ℚ)
    (segs : List (ℚ × ℚ)) (h : ∀ g ∈ segs, g.2 - g.1 < d)
    (attrs : List String) (st : TS × List (ℚ × ℚ)) :
    (attrs.foldl (rebinAttrStep ts t segs d) st).2 = st.2 := by
  induction attrs generalizing st with
  | nil => rfl
  | cons a as ih =>
    simp only [List.foldl_cons]
    rw [ih]
    unfold rebinAttrStep
    split
    · rfl
    · simp only
      rw [rebinSegFold_short ts t a d segs h]

/-- Claim C7, amended: `rebin` fails with a `ValueError` when neither a
new spacing nor a factor is given; when the requested spacing is smaller
than the current one; and — provided the object has a GTI and a time
array — with "No valid GTIs after rebin" whenever every GTI segment is
strictly shorter than the requested spacing (a segment of length exactly
the new spacing is kept, see `c7_counterexample`). -/
theorem c7_rebin_failures (ts : TS) :
    (ts.rebin none none =
      .error "ValueError: You need to specify at least one between f and dt_new") ∧
    (∀ d : ℚ, d < ts.dt → ts.rebin (some d) none =
      .error "ValueError: The new time resolution must be larger than the old one!") ∧
    (∀ d : ℚ, ∀ segs : List (ℚ × ℚ), ∀ t : List ℚ,
      ts.gti = some segs → ts._time = some t → ¬ d < ts.dt →
      (∀ g ∈ segs, g.2 - g.1 < d) →
      ts.rebin (some d) none = .error "ValueError: No valid GTIs after rebin.") := by
  refine ⟨rfl, ?_, ?_⟩
  · intro d hd
    unfold TS.rebin
    simp only [pure_bind]
    rw [if_pos hd]
    rfl
  · intro d segs t hg ht hd h
    unfold TS.rebin
    simp only [pure_bind]
    rw [if_neg hd, hg, ht]
    simp only
    rw [show ((ts.array_attrs ++ ts.internal_array_attrs).foldl
        (rebinAttrStep ts t segs d) (({} : TS), [])).2 = [] from
      rebinAttrFold_short ts t d segs h _ _]
    rfl

/-- Witness for `c7_rebin_failures` at concrete inputs. -/
theorem c7_rebin_failures_witness :
    exC7b.rebin none none =
      .error "ValueError: You need to specify at least one between f and dt_new" ∧
    exC7b.rebin (some (1 / 2)) none =
      .error "ValueError: The new time resolution must be larger than the old one!" ∧
    exC7c.rebin (some 2) none =
      .error "ValueError: No valid GTIs after rebin." :=
  ⟨(c7_rebin_failures exC7b).1,
   (c7_rebin_failures exC7b).2.1 (1 / 2) (by with_unfolding_all decide),
   (c7_rebin_failures exC7c).2.2 2 [(0, 1)] [1, 2] (by with_unfolding_all rfl)
     rfl (by with_unfolding_all decide) (by with_unfolding_all decide)⟩

/-- A member of `array_attrs` is a public name distinct from the main
attribute and from the `not_array_attr` entry. -/
theorem mem_array_attrs_props (ts : TS) (n : String) (h : n ∈ ts.array_attrs) :
    n.startsWith "_" = false ∧ n ≠ "time" ∧ n ≠ "gti" := by
  unfold TS.array_attrs at h
  split at h
  · simp at h
  · simp only [List.mem_map] at h
    obtain ⟨p, hp, hpn⟩ := h
    have hpred := List.of_mem_filter hp
    subst hpn
    unfold arrayAttrPred at hpred
    simp only [Bool.and_eq_true] at hpred
    refine ⟨by simpa using hpred.1.1.1, ?_, ?_⟩
    · intro he
      rw [he] at hpred
      exact absurd hpred.1.1.2 (by decide)
    · intro he
      rw [he] at hpred
      exact absurd hpred.1.2 (by decide)

/-- A member of `internal_array_attrs` uses the private prefix. -/
theorem mem_internal_attrs_private (ts : TS) (n : String)
    (h : n ∈ ts.internal_array_attrs) : n.startsWith "_" = true := by
  unfold TS.internal_array_attrs at h
  split at h
  · simp at h
  · rcases List.mem_append.mp h with h | h
    · have hnm : n = "_mask" := by
        revert h
        split
        · split
          · intro h; simpa using h
          · intro h; simp at h
        · intro h; simp at h
      rw [hnm]
      with_unfolding_all decide
    · simp only [List.mem_map] at h
      obtain ⟨p, hp, hpn⟩ := h
      have hpred := List.of_mem_filter hp
      subst hpn
      unfold internalAttrPred at hpred
      simp only [Bool.and_eq_true] at hpred
      exact hpred.1.1.1.1.1

/-- A member of `meta_attrs` either passed the public-and-not-an-array
filter or is the force-appended `"gti"`. -/
theorem mem_meta_attrs_cases (ts : TS) (n : String) (h : n ∈ ts.meta_attrs) :
    ((ts.array_attrs ++ ["time"] ++ ts.internal_array_attrs).contains n = false ∧
      n.startsWith "_" = false) ∨ n = "gti" := by
  unfold TS.meta_attrs at h
  simp only at h
  rcases List.mem_append.mp h with h | h
  · left
    have hpred := List.of_mem_filter h
    simp only [Bool.and_eq_true, Bool.not_eq_true'] at hpred
    exact hpred
  · right
    simpa [notArrayAttr] using h

/-- Claim C9, amended: the four classification categories are pairwise
disjoint — no field name appears in two of them — and their union covers
every data field that does not use the private-underscore convention.
(Full coverage of all data fields fails on the private backing fields,
see `c9_counterexample`.) -/
theorem c9_partition (ts : TS) :
    (∀ n ∈ ts.array_attrs,
      n ≠ "time" ∧ n ∉ ts.internal_array_attrs ∧ n ∉ ts.meta_attrs) ∧
    (∀ n ∈ ts.internal_array_attrs, n ≠ "time" ∧ n ∉ ts.meta_attrs) ∧
    (∀ n ∈ ts.meta_attrs, n ≠ "time") ∧
    (∀ n ∈ ts.dataAttributes, n.startsWith "_" = false →
      n ∈ ts.array_attrs ∨ n = "time" ∨ n ∈ ts.internal_array_attrs ∨
        n ∈ ts.meta_attrs) := by
  refine ⟨?_, ?_, ?_, ?_⟩
  · intro n hn
    obtain ⟨hpub, hnt, hng⟩ := mem_array_attrs_props ts n hn
    refine ⟨hnt, ?_, ?_⟩
    · intro hi
      rw [mem_internal_attrs_private ts n hi] at hpub
      exact absurd hpub (by decide)
    · intro hm
      rcases mem_meta_attrs_cases ts n hm with ⟨hc, _⟩ | he
      · have hmem : n ∈ ts.array_attrs ++ ["time"] ++ ts.internal_array_attrs :=
          List.mem_append.mpr (Or.inl (List.mem_append.mpr (Or.inl hn)))
        simp at hmem hc
        tauto
      · exact hng he
  · intro n hn
    have hpriv := mem_internal_attrs_private ts n hn
    constructor
    · intro he
      rw [he] at hpriv
      exact absurd hpriv (by with_unfolding_all decide)
    · intro hm
      rcases mem_meta_attrs_cases ts n hm with ⟨_, hpub⟩ | he
      · rw [hpriv] at hpub
        exact absurd hpub (by decide)
      · rw [he] at hpriv
        exact absurd hpriv (by with_unfolding_all decide)
  · intro n hn he
    rcases mem_meta_attrs_cases ts n hn with ⟨hc, _⟩ | hg
    · have hmem : n ∈ ts.array_attrs ++ ["time"] ++ ts.internal_array_attrs := by
        rw [he]
        exact List.mem_append.mpr (Or.inl (List.mem_append.mpr (Or.inr (by simp))))
      simp at hmem hc
      tauto
    · rw [he] at hg
      exact absurd hg (by decide)
  · intro n hn hpub
    by_cases harr : n ∈ ts.array_attrs ++ ["time"] ++ ts.internal_array_attrs
    · rcases List.mem_append.mp harr with h | h
      · rcases List.mem_append.mp h with h | h
        · exact Or.inl h
        · exact Or.inr (Or.inl (by simpa using h))
      · exact Or.inr (Or.inr (Or.inl h))
    · refine Or.inr (Or.inr (Or.inr ?_))
      unfold TS.meta_attrs
      simp only
      refine List.mem_append.mpr (Or.inl ?_)
      refine List.mem_filter.mpr ⟨hn, ?_⟩
      have harr2 : n ∉ ts.array_attrs ∧ ¬ n = "time" ∧ n ∉ ts.internal_array_attrs := by
        simpa using harr
      simp [hpub, harr2.1, harr2.2.1, harr2.2.2]

/-- Witness for `c9_partition` at a concrete input: `counts` is classified
as an array attribute and, by disjointness, not as a meta attribute. -/
theorem c9_partition_witness :
    "counts" ∈ exC9w.array_attrs ∧ "counts" ∉ exC9w.meta_attrs :=
  ⟨by with_unfolding_all decide,
   ((c9_partition exC9w).1 "counts" (by with_unfolding_all decide)).2.2⟩

/-- `getattr` on a non-reserved name reads the dynamic store. -/
theorem getAttr_nonreserved (ts : TS) (n : String) (h : n ∉ reservedNames) :
    ts.getAttr n = ts.extra.lookup n := by
  simp only [reservedNames, List.mem_cons, not_or, List.not_mem_nil,
    not_false_eq_true, and_true] at h
  obtain ⟨h1, h2, h3, h4, h5, h6, h7, h8, h9⟩ := h
  unfold TS.getAttr
  rw [if_neg h1, if_neg h2, if_neg h4, if_neg h5, if_neg h6, if_neg h7,
    if_neg h8, if_neg h9]

/-- `setattr` of a value under a non-reserved name routes to the dynamic
store. -/
theorem setAttr_nonreserved (ts : TS) (n : String) (v : AttrVal)
    (h : n ∉ reservedNames) :
    ts.setAttr n (some v) = { ts with extra := upsert ts.extra n v } := by
  simp only [reservedNames, List.mem_cons, not_or, List.not_mem_nil,
    not_false_eq_true, and_true] at h
  obtain ⟨h1, h2, h3, h4, h5, h6, h7, h8, h9⟩ := h
  unfold TS.setAttr
  rw [if_neg h1, if_neg h2, if_neg h4, if_neg h5, if_neg h6, if_neg h7,
    if_neg h8, if_neg h9, if_neg h3]

/-- Upserting a fresh key appends the pair. -/
theorem upsert_fresh (l : List (String × AttrVal)) (n : String) (v : AttrVal)
    (h : n ∉ l.map Prod.fst) : upsert l n v = l ++ [(n, v)] := by
  unfold upsert
  rw [if_neg]
  simp only [List.any_eq_true, beq_iff_eq, not_exists]
  intro p hpn
  obtain ⟨hp, he⟩ := hpn
  exact h (he ▸ List.mem_map_of_mem Prod.fst hp)

/-- In a list with `Nodup` keys, `lookup` finds each entry's value. -/
theorem lookup_eq_of_mem (l : List (String × AttrVal)) (p : String × AttrVal)
    (hnd : (l.map Prod.fst).Nodup) (hp : p ∈ l) : l.lookup p.1 = some p.2 := by
  induction l with
  | nil => simp at hp
  | cons q qs ih =>
    rcases List.mem_cons.mp hp with he | hm
    · subst he
      simp [List.lookup]
    · have hnd2 : q.1 ∉ qs.map Prod.fst ∧ (qs.map Prod.fst).Nodup := by
        rw [List.map_cons] at hnd
        exact List.nodup_cons.mp hnd
      have hq : q.1 ≠ p.1 := by
        intro he
        exact hnd2.1 (he ▸ List.mem_map_of_mem Prod.fst hm)
      have hne : (p.1 == q.1) = false :=
        beq_eq_false_iff_ne.mpr (fun he => hq he.symm)
      simp only [List.lookup, hne]
      exact ih hnd2.2 hm

/-- `lookup` skips a block that does not hold the key. -/
theorem lookup_append_right (l1 l2 : List (String × AttrVal)) (n : String)
    (h : n ∉ l1.map Prod.fst) : (l1 ++ l2).lookup n = l2.lookup n := by
  induction l1 with
  | nil => rfl
  | cons q qs ih =>
    simp only [List.map_cons, List.mem_cons, not_or] at h
    have hne : (n == q.1) = false :=
      beq_eq_false_iff_ne.mpr (fun he => h.1 he)
    simp only [List.cons_append, List.lookup, hne]
    exact ih h.2

/-- Importing a block of columns whose names are fresh, lowercase and
non-reserved appends the block to the dynamic store unchanged. -/
theorem colsFold_append (ps : List (String × AttrVal)) (acc : TS)
    (hfresh : ∀ p ∈ ps, p.1 ∉ acc.extra.map Prod.fst)
    (hnd : (ps.map Prod.fst).Nodup)
    (hlow : ∀ p ∈ ps, p.1.toLower = p.1)
    (hres : ∀ p ∈ ps, p.1 ∉ reservedNames) :
    ps.foldl (fun a c => if c.1.toLower == "time" then a
      else a.setAttr c.1.toLower (some c.2)) acc =
    { acc with extra := acc.extra ++ ps } := by
  induction ps generalizing acc with
  | nil => simp
  | cons p rest ih =>
    have hmem := List.mem_cons_self p rest
    have hplow := hlow p hmem
    have hpres := hres p hmem
    have hpt : p.1 ≠ "time" := by
      intro he
      exact hpres (by rw [he]; simp [reservedNames])
    have hguard : (p.1.toLower == "time") = false := by
      rw [hplow]
      exact beq_eq_false_iff_ne.mpr hpt
    have hnd2 : p.1 ∉ rest.map Prod.fst ∧ (rest.map Prod.fst).Nodup := by
      rw [List.map_cons] at hnd
      exact List.nodup_cons.mp hnd
    simp only [List.foldl_cons, hguard, Bool.false_eq_true, if_false]
    rw [hplow, setAttr_nonreserved _ _ _ hpres,
      upsert_fresh _ _ _ (hfresh p hmem)]
    rw [ih _ ?_ hnd2.2 (fun q hq => hlow q (List.mem_cons_of_mem p hq))
      (fun q hq => hres q (List.mem_cons_of_mem p hq))]
    · simp
    · intro q hq
      simp only [List.map_append, List.mem_append, not_or]
      refine ⟨hfresh q (List.mem_cons_of_mem p hq), ?_⟩
      simp only [List.map_cons, List.map_nil, List.mem_cons,
        List.not_mem_nil, or_false]
      intro he
      exact hnd2.1 (he ▸ List.mem_map_of_mem Prod.fst hq)

/-- Importing a block of metadata entries whose keys are fresh, lowercase
and non-reserved appends the block to the dynamic store unchanged. -/
theorem metaFold_append (ps : List (String × AttrVal)) (acc : TS)
    (hfresh : ∀ p ∈ ps, p.1 ∉ acc.extra.map Prod.fst)
    (hnd : (ps.map Prod.fst).Nodup)
    (hlow : ∀ p ∈ ps, p.1.toLower = p.1)
    (hres : ∀ p ∈ ps, p.1 ∉ reservedNames) :
    ps.foldl (fun a m => a.setAttr m.1.toLower (some m.2)) acc =
    { acc with extra := acc.extra ++ ps } := by
  induction ps generalizing acc with
  | nil => simp
  | cons p rest ih =>
    have hmem := List.mem_cons_self p rest
    have hnd2 : p.1 ∉ rest.map Prod.fst ∧ (rest.map Prod.fst).Nodup := by
      rw [List.map_cons] at hnd
      exact List.nodup_cons.mp hnd
    simp only [List.foldl_cons]
    rw [hlow p hmem, setAttr_nonreserved _ _ _ (hres p hmem),
      upsert_fresh _ _ _ (hfresh p hmem)]
    rw [ih _ ?_ hnd2.2 (fun q hq => hlow q (List.mem_cons_of_mem p hq))
      (fun q hq => hres q (List.mem_cons_of_mem p hq))]
    · simp
    · intro q hq
      simp only [List.map_append, List.mem_append, not_or]
      refine ⟨hfresh q (List.mem_cons_of_mem p hq), ?_⟩
      simp only [List.map_cons, List.map_nil, List.mem_cons,
        List.not_mem_nil, or_false]
      intro he
      exact hnd2.1 (he ▸ List.mem_map_of_mem Prod.fst hq)

/-- With a time array present, `array_attrs` is the filtered dynamic
store. -/
theorem array_attrs_char (x : TS) (tl : List ℚ) (ht : x._time = some tl) :
    x.array_attrs = (x.extra.filter (arrayAttrPred tl.length)).map Prod.fst := by
  unfold TS.array_attrs
  rw [ht]

/-- With a time array present and no materialized mask,
`internal_array_attrs` is the filtered dynamic store. -/
theorem internal_attrs_char (x : TS) (tl : List ℚ) (ht : x._time = some tl)
    (hm : x._mask = none) :
    x.internal_array_attrs =
      (x.extra.filter (internalAttrPred tl.length)).map Prod.fst := by
  unfold TS.internal_array_attrs
  rw [ht, hm]
  rfl

/-- Two entries of a list with `Nodup` keys sharing a key are equal. -/
theorem entry_unique (l : List (String × AttrVal))
    (hnd : (l.map Prod.fst).Nodup) (p q : String × AttrVal)
    (hp : p ∈ l) (hq : q ∈ l) (he : p.1 = q.1) : p = q := by
  induction l with
  | nil => simp at hp
  | cons a as ih =>
    have hnd2 : a.1 ∉ as.map Prod.fst ∧ (as.map Prod.fst).Nodup := by
      rw [List.map_cons] at hnd
      exact List.nodup_cons.mp hnd
    rcases List.mem_cons.mp hp with hpe | hpm
    · rcases List.mem_cons.mp hq with hqe | hqm
      · rw [hpe, hqe]
      · exact absurd (by rw [← hpe, he]; exact List.mem_map_of_mem Prod.fst hqm)
          hnd2.1
    · rcases List.mem_cons.mp hq with hqe | hqm
      · exact absurd (by rw [← hqe, ← he]; exact List.mem_map_of_mem Prod.fst hpm)
          hnd2.1
      · exact ih hnd2.2 hpm hqm

/-- With `Nodup` keys, a key appears among the filtered names iff its
entry satisfies the filter. -/
theorem mem_filter_names_iff (l : List (String × AttrVal))
    (hnd : (l.map Prod.fst).Nodup) (q : (String × AttrVal) → Bool)
    (p : String × AttrVal) (hp : p ∈ l) :
    p.1 ∈ (l.filter q).map Prod.fst ↔ q p = true := by
  constructor
  · intro h
    simp only [List.mem_map] at h
    obtain ⟨p2, hp2, he⟩ := h
    have hp2l := List.mem_of_mem_filter hp2
    have : p = p2 := entry_unique l hnd p p2 hp hp2l he.symm
    rw [this]
    exact List.of_mem_filter hp2
  · intro h
    exact List.mem_map_of_mem Prod.fst (List.mem_filter.mpr ⟨hp, h⟩)

/-- Computed string fact. -/
theorem sw_utime : "_time".startsWith "_" = true := by with_unfolding_all rfl

/-- Computed string fact. -/
theorem sw_ugti : "_gti".startsWith "_" = true := by with_unfolding_all rfl

/-- Computed string fact. -/
theorem sw_dt : "dt".startsWith "_" = false := by with_unfolding_all rfl

/-- Computed string fact. -/
theorem sw_mjdref : "mjdref".startsWith "_" = false := by with_unfolding_all rfl

/-- Computed string fact. -/
theorem sw_notes : "notes".startsWith "_" = false := by with_unfolding_all rfl

/-- Computed string fact. -/
theorem lower_time : "time".toLower = "time" := by with_unfolding_all rfl

/-- Computed string fact. -/
theorem lower_dt : "dt".toLower = "dt" := by with_unfolding_all rfl

/-- Computed string fact. -/
theorem lower_mjdref : "mjdref".toLower = "mjdref" := by with_unfolding_all rfl

/-- Computed string fact. -/
theorem lower_notes : "notes".toLower = "notes" := by with_unfolding_all rfl

/-- Computed string fact. -/
theorem lower_gti : "gti".toLower = "gti" := by with_unfolding_all rfl

/-- Every name in the combined array-name list is the main attribute or a
dynamic-store key. -/
theorem mem_arrs_cases (x : TS) (tl : List ℚ) (ht : x._time = some tl)
    (hm : x._mask = none) (m : String)
    (h : m ∈ x.array_attrs ++ ["time"] ++ x.internal_array_attrs) :
    m = "time" ∨ m ∈ x.extra.map Prod.fst := by
  rcases List.mem_append.mp h with h | h
  · rcases List.mem_append.mp h with h | h
    · right
      rw [array_attrs_char x tl ht] at h
      simp only [List.mem_map] at h
      obtain ⟨p, hp, he⟩ := h
      exact he ▸ List.mem_map_of_mem Prod.fst (List.mem_of_mem_filter hp)
    · left
      simpa using h
  · right
    rw [internal_attrs_char x tl ht hm] at h
    simp only [List.mem_map] at h
    obtain ⟨p, hp, he⟩ := h
    exact he ▸ List.mem_map_of_mem Prod.fst (List.mem_of_mem_filter hp)

/-- A reserved non-main name is never in the combined array-name list. -/
theorem contains_arrs_reserved (x : TS) (tl : List ℚ) (ht : x._time = some tl)
    (hm : x._mask = none)
    (hres : ∀ n ∈ x.extra.map Prod.fst, n ∉ reservedNames)
    (c : String) (hcr : c ∈ reservedNames) (hct : c ≠ "time") :
    ((x.array_attrs ++ ["time"] ++ x.internal_array_attrs).contains c) = false := by
  have hnm : c ∉ x.array_attrs ++ ["time"] ++ x.internal_array_attrs := by
    intro hc
    rcases mem_arrs_cases x tl ht hm c hc with he | hns
    · exact hct he
    · exact hres c hns hcr
  simpa using hnm

/-- Filtering the key list of an association list agrees with mapping the
keys of the entry-filtered list, when the predicates agree entrywise. -/
theorem filter_names_eq (l : List (String × AttrVal)) (f : String → Bool)
    (q : (String × AttrVal) → Bool) (h : ∀ p ∈ l, f p.1 = q p) :
    (l.map Prod.fst).filter f = (l.filter q).map Prod.fst := by
  induction l with
  | nil => rfl
  | cons p rest ih =>
    simp only [List.map_cons, List.filter_cons, h p (List.mem_cons_self p rest)]
    cases hq : q p <;>
      simp [hq, ih (fun r hr => h r (List.mem_cons_of_mem p hr))]

/-- With a time array present, no materialized mask, `Nodup` non-reserved
dynamic keys, `meta_attrs` is the fixed scalar fields, then the public
non-array dynamic keys, then the forced `"gti"`. -/
theorem meta_attrs_char (x : TS) (tl : List ℚ) (ht : x._time = some tl)
    (hm : x._mask = none)
    (hnd : (x.extra.map Prod.fst).Nodup)
    (hres : ∀ n ∈ x.extra.map Prod.fst, n ∉ reservedNames) :
    x.meta_attrs = ["dt", "mjdref", "notes"] ++
      (x.extra.filter (metaPublicPred tl.length)).map Prod.fst ++ ["gti"] := by
  have hdt := contains_arrs_reserved x tl ht hm hres "dt" (by decide)
    (by decide)
  have hmj := contains_arrs_reserved x tl ht hm hres "mjdref" (by decide)
    (by decide)
  have hno := contains_arrs_reserved x tl ht hm hres "notes" (by decide)
    (by decide)
  have hcong : ∀ p ∈ x.extra,
      (!(x.array_attrs ++ ["time"] ++ x.internal_array_attrs).contains p.1
        && !p.1.startsWith "_") = metaPublicPred tl.length p := by
    intro p hp
    unfold metaPublicPred
    cases hsw : p.1.startsWith "_" with
    | true => simp [hsw]
    | false =>
      have hcp : ((x.array_attrs ++ ["time"] ++
          x.internal_array_attrs).contains p.1) = arrayAttrPred tl.length p := by
        cases ha : arrayAttrPred tl.length p with
        | true =>
          have hmem2 : p.1 ∈ x.array_attrs := by
            rw [array_attrs_char x tl ht]
            exact (mem_filter_names_iff x.extra hnd _ p hp).mpr ha
          have hmem3 : p.1 ∈ x.array_attrs ++ ["time"] ++
              x.internal_array_attrs :=
            List.mem_append.mpr (Or.inl (List.mem_append.mpr (Or.inl hmem2)))
          simpa using hmem3
        | false =>
          have hna : p.1 ∉ x.array_attrs := by
            rw [array_attrs_char x tl ht]
            intro hc
            rw [(mem_filter_names_iff x.extra hnd _ p hp).mp hc] at ha
            cases ha
          have hni : p.1 ∉ x.internal_array_attrs := by
            rw [internal_attrs_char x tl ht hm]
            intro hc
            have hcc := (mem_filter_names_iff x.extra hnd _ p hp).mp hc
            unfold internalAttrPred at hcc
            simp only [Bool.and_eq_true] at hcc
            rw [hsw] at hcc
            exact absurd hcc.1.1.1.1.1 (by decide)
          have hnt : p.1 ≠ "time" := by
            intro he
            exact hres p.1 (List.mem_map_of_mem Prod.fst hp)
              (by rw [he]; decide)
          have hnm : p.1 ∉ x.array_attrs ++ ["time"] ++
              x.internal_array_attrs := by
            intro hc
            rcases List.mem_append.mp hc with hc | hc
            · rcases List.mem_append.mp hc with hc | hc
              · exact hna hc
              · exact hnt (by simpa using hc)
            · exact hni hc
          simpa using hnm
      rw [hcp]
      simp [hsw, Bool.and_comm]
  unfold TS.meta_attrs TS.dataAttributes
  simp only
  rw [ht, hm]
  cases hg : x._gti with
  | none =>
    simp only [Option.isSome_some, Option.isSome_none, if_true, if_false]
    simp only [List.filter_append]
    rw [filter_names_eq x.extra
      (fun n => !(x.array_attrs ++ ["time"] ++
        x.internal_array_attrs).contains n && !n.startsWith "_")
      (metaPublicPred tl.length) hcong]
    simp only [List.filter_cons, List.filter_nil, sw_utime, sw_dt, sw_mjdref,
      sw_notes, hdt, hmj, hno, Bool.not_true, Bool.not_false, Bool.and_false,
      Bool.and_true, Bool.false_and, Bool.true_and]
    simp [notArrayAttr]
  | some g =>
    simp only [Option.isSome_some, Option.isSome_none, if_true, if_false]
    simp only [List.filter_append]
    rw [filter_names_eq x.extra
      (fun n => !(x.array_attrs ++ ["time"] ++
        x.internal_array_attrs).contains n && !n.startsWith "_")
      (metaPublicPred tl.length) hcong]
    simp only [List.filter_cons, List.filter_nil, sw_utime, sw_ugti, sw_dt,
      sw_mjdref, sw_notes, hdt, hmj, hno, Bool.not_true, Bool.not_false,
      Bool.and_false, Bool.and_true, Bool.false_and, Bool.true_and]
    simp [notArrayAttr]

/-- Reading back a block of dynamic-store entries by name yields the
entries themselves. -/
theorem filterMap_getAttr_entries (x : TS) (ps : List (String × AttrVal))
    (hnd : (x.extra.map Prod.fst).Nodup)
    (hsub : ∀ p ∈ ps, p ∈ x.extra)
    (hres : ∀ p ∈ ps, p.1 ∉ reservedNames) :
    (ps.map Prod.fst).filterMap
      (fun n => (x.getAttr n).map (fun v => (n, v))) = ps := by
  induction ps with
  | nil => rfl
  | cons p rest ih =>
    have hmem := List.mem_cons_self p rest
    simp only [List.map_cons, List.filterMap_cons]
    rw [getAttr_nonreserved x p.1 (hres p hmem),
      lookup_eq_of_mem x.extra p hnd (hsub p hmem)]
    simp only [Option.map_some']
    rw [ih (fun q hq => hsub q (List.mem_cons_of_mem p hq))
      (fun q hq => hres q (List.mem_cons_of_mem p hq))]

/-- The exported metadata mapping: the three fixed scalar fields, the
public non-array dynamic entries, and the (derived or explicit) GTI. -/
theorem get_meta_dict_char (x : TS) (tl : List ℚ) (gv : List (ℚ × ℚ))
    (ht : x._time = some tl) (hm : x._mask = none)
    (hnd : (x.extra.map Prod.fst).Nodup)
    (hres : ∀ n ∈ x.extra.map Prod.fst, n ∉ reservedNames)
    (hgv : x.gti = some gv) :
    x.get_meta_dict = [("dt", .scal x.dt), ("mjdref", .scal x.mjdref),
      ("notes", .vstr x.notes)] ++
      x.extra.filter (metaPublicPred tl.length) ++ [("gti", .mat gv)] := by
  unfold TS.get_meta_dict
  rw [meta_attrs_char x tl ht hm hnd hres]
  rw [List.filterMap_append, List.filterMap_append]
  rw [filterMap_getAttr_entries x (x.extra.filter (metaPublicPred tl.length))
    hnd (fun p hp => List.mem_of_mem_filter hp)
    (fun p hp => hres p.1
      (List.mem_map_of_mem Prod.fst (List.mem_of_mem_filter hp)))]
  have hgti2 : x.getAttr "gti" = some (.mat gv) := by
    show x.gti.map AttrVal.mat = some (.mat gv)
    rw [hgv]
    rfl
  simp only [List.filterMap_cons, List.filterMap_nil, hgti2]
  rfl

/-- The exported columns: the array entries, then the main `time` column,
then the internal entries. -/
theorem cols_char (x : TS) (tl : List ℚ)
    (ht : x._time = some tl) (hm : x._mask = none)
    (hnd : (x.extra.map Prod.fst).Nodup)
    (hres : ∀ n ∈ x.extra.map Prod.fst, n ∉ reservedNames) :
    (x.toAstropyTable).cols =
      x.extra.filter (arrayAttrPred tl.length) ++ [("time", .arr tl)] ++
      x.extra.filter (internalAttrPred tl.length) := by
  unfold TS.toAstropyTable
  simp only
  rw [array_attrs_char x tl ht, internal_attrs_char x tl ht hm]
  rw [List.filterMap_append, List.filterMap_append]
  rw [filterMap_getAttr_entries x (x.extra.filter (arrayAttrPred tl.length))
    hnd (fun p hp => List.mem_of_mem_filter hp)
    (fun p hp => hres p.1
      (List.mem_map_of_mem Prod.fst (List.mem_of_mem_filter hp)))]
  rw [filterMap_getAttr_entries x (x.extra.filter (internalAttrPred tl.length))
    hnd (fun p hp => List.mem_of_mem_filter hp)
    (fun p hp => hres p.1
      (List.mem_map_of_mem Prod.fst (List.mem_of_mem_filter hp)))]
  have htv : x.getAttr "time" = some (.arr tl) := by
    show x._time.map AttrVal.arr = some (.arr tl)
    rw [ht]
    rfl
  simp only [List.filterMap_cons, List.filterMap_nil, htv]
  rfl

/-- Names of entries filtered by incompatible predicates are disjoint
(given `Nodup` keys). -/
theorem filter_names_disjoint (l : List (String × AttrVal))
    (hnd : (l.map Prod.fst).Nodup) (q1 q2 : (String × AttrVal) → Bool)
    (hq : ∀ p ∈ l, ¬(q1 p = true ∧ q2 p = true)) :
    ∀ n ∈ (l.filter q1).map Prod.fst, n ∉ (l.filter q2).map Prod.fst := by
  intro n h1 h2
  simp only [List.mem_map] at h1 h2
  obtain ⟨p1, hp1, he1⟩ := h1
  obtain ⟨p2, hp2, he2⟩ := h2
  have he : p1.1 = p2.1 := by rw [he1, he2]
  have : p1 = p2 := entry_unique l hnd p1 p2 (List.mem_of_mem_filter hp1)
    (List.mem_of_mem_filter hp2) he
  exact hq p1 (List.mem_of_mem_filter hp1)
    ⟨List.of_mem_filter hp1, this ▸ List.of_mem_filter hp2⟩

/-- Filtered names inherit `Nodup` from the full key list. -/
theorem filter_names_nodup (l : List (String × AttrVal))
    (hnd : (l.map Prod.fst).Nodup) (q : (String × AttrVal) → Bool) :
    ((l.filter q).map Prod.fst).Nodup :=
  ((List.filter_sublist l).map Prod.fst).nodup hnd

/-- `_set_times` keeps a non-empty list. -/
theorem setTimesNorm_ne_nil (tl : List ℚ) (h : tl ≠ []) :
    setTimesNorm (some tl) = some tl := by
  cases tl with
  | nil => exact absurd rfl h
  | cons a as => rfl

/-- An array-attribute entry is never an internal one (public vs private
name). -/
theorem arr_int_incompatible (tlen : Nat) (p : String × AttrVal) :
    ¬(arrayAttrPred tlen p = true ∧ internalAttrPred tlen p = true) := by
  intro h
  unfold arrayAttrPred at h
  unfold internalAttrPred at h
  simp only [Bool.and_eq_true] at h
  have h1 := h.1.1.1.1
  have h2 := h.2.1.1.1.1.1
  rw [h2] at h1
  cases h1

/-- An array-attribute entry is never a public meta one. -/
theorem arr_meta_incompatible (tlen : Nat) (p : String × AttrVal) :
    ¬(arrayAttrPred tlen p = true ∧ metaPublicPred tlen p = true) := by
  intro h
  unfold metaPublicPred at h
  simp only [Bool.and_eq_true] at h
  rw [h.1] at h
  cases h.2.2

/-- An internal-attribute entry is never a public meta one. -/
theorem int_meta_incompatible (tlen : Nat) (p : String × AttrVal) :
    ¬(internalAttrPred tlen p = true ∧ metaPublicPred tlen p = true) := by
  intro h
  unfold internalAttrPred metaPublicPred at h
  simp only [Bool.and_eq_true] at h
  have h1 := h.1.1.1.1.1.1
  have h2 := h.2.1
  rw [h1] at h2
  cases h2

/-- Importing the exported table of a well-named series produces the
explicit record: time restored, GTI materialized, mask cache clear, the
fixed fields copied, and the dynamic store regrouped as array entries,
then internal entries, then public meta entries. -/
theorem import_char (x : TS) (tl : List ℚ) (gv : List (ℚ × ℚ))
    (ht : x._time = some tl) (htne : tl ≠ []) (hm : x._mask = none)
    (hnd : (x.extra.map Prod.fst).Nodup)
    (hres : ∀ n ∈ x.extra.map Prod.fst, n ∉ reservedNames)
    (hlow : ∀ n ∈ x.extra.map Prod.fst, n.toLower = n)
    (hgv : x.gti = some gv) :
    fromAstropyTable (x.toAstropyTable) =
      { _time := some tl, _gti := some gv, _mask := none, dt := x.dt,
        mjdref := x.mjdref, notes := x.notes,
        extra := x.extra.filter (arrayAttrPred tl.length) ++
          x.extra.filter (internalAttrPred tl.length) ++
          x.extra.filter (metaPublicPred tl.length) } := by
  have hcols := cols_char x tl ht hm hnd hres
  have hmeta := get_meta_dict_char x tl gv ht hm hnd hres hgv
  have hsubA : ∀ p ∈ x.extra.filter (arrayAttrPred tl.length), p ∈ x.extra :=
    fun p hp => List.mem_of_mem_filter hp
  have hsubI : ∀ p ∈ x.extra.filter (internalAttrPred tl.length), p ∈ x.extra :=
    fun p hp => List.mem_of_mem_filter hp
  have hsubP : ∀ p ∈ x.extra.filter (metaPublicPred tl.length), p ∈ x.extra :=
    fun p hp => List.mem_of_mem_filter hp
  have hresA : ∀ p ∈ x.extra.filter (arrayAttrPred tl.length),
      p.1 ∉ reservedNames :=
    fun p hp => hres p.1 (List.mem_map_of_mem Prod.fst (hsubA p hp))
  have hresI : ∀ p ∈ x.extra.filter (internalAttrPred tl.length),
      p.1 ∉ reservedNames :=
    fun p hp => hres p.1 (List.mem_map_of_mem Prod.fst (hsubI p hp))
  have hresP : ∀ p ∈ x.extra.filter (metaPublicPred tl.length),
      p.1 ∉ reservedNames :=
    fun p hp => hres p.1 (List.mem_map_of_mem Prod.fst (hsubP p hp))
  have hlowA : ∀ p ∈ x.extra.filter (arrayAttrPred tl.length),
      p.1.toLower = p.1 :=
    fun p hp => hlow p.1 (List.mem_map_of_mem Prod.fst (hsubA p hp))
  have hlowI : ∀ p ∈ x.extra.filter (internalAttrPred tl.length),
      p.1.toLower = p.1 :=
    fun p hp => hlow p.1 (List.mem_map_of_mem Prod.fst (hsubI p hp))
  have hlowP : ∀ p ∈ x.extra.filter (metaPublicPred tl.length),
      p.1.toLower = p.1 :=
    fun p hp => hlow p.1 (List.mem_map_of_mem Prod.fst (hsubP p hp))
  have hrow : ¬ (x.toAstropyTable).rowCount = 0 := by
    unfold ATable.rowCount
    rw [hcols]
    cases hA : x.extra.filter (arrayAttrPred tl.length) with
    | nil =>
      simp only [List.nil_append, List.cons_append]
      intro hc
      exact htne (List.length_eq_zero.mp (by simpa [AttrVal.leadingLen] using hc))
    | cons p rest =>
      have hp : p ∈ x.extra.filter (arrayAttrPred tl.length) := by
        rw [hA]
        exact List.mem_cons_self p rest
      have hpred := List.of_mem_filter hp
      unfold arrayAttrPred at hpred
      simp only [Bool.and_eq_true, beq_iff_eq] at hpred
      simp only [List.cons_append]
      rw [hpred.2]
      intro hc
      exact htne (List.length_eq_zero.mp (by simpa using hc))
  have hmeta2 : (x.toAstropyTable).meta = [("dt", .scal x.dt),
      ("mjdref", .scal x.mjdref), ("notes", .vstr x.notes)] ++
      x.extra.filter (metaPublicPred tl.length) ++ [("gti", .mat gv)] := by
    show x.get_meta_dict = _
    exact hmeta
  unfold fromAstropyTable
  rw [if_neg hrow, hcols, hmeta2]
  have hfind : ((x.extra.filter (arrayAttrPred tl.length) ++
      [("time", AttrVal.arr tl)] ++
      x.extra.filter (internalAttrPred tl.length)).find?
        (fun c => c.1.toLower == "time")) = some ("time", .arr tl) := by
    rw [List.find?_append, List.find?_append]
    have hfA : (x.extra.filter (arrayAttrPred tl.length)).find?
        (fun c => c.1.toLower == "time") = none := by
      rw [List.find?_eq_none]
      intro p hp hbeq
      rw [hlowA p hp] at hbeq
      have he : p.1 = "time" := by simpa using hbeq
      exact hresA p hp (by rw [he]; decide)
    rw [hfA]
    have hfT : (([("time", AttrVal.arr tl)] : List (String × AttrVal)).find?
        (fun c => c.1.toLower == "time")) = some ("time", .arr tl) := by
      simp [List.find?, lower_time]
    rw [hfT]
    rfl
  rw [hfind]
  simp only
  have hts1 : TS.setAttr {} "time" (some (.arr tl)) =
      ({ _time := some tl } : TS) := by
    have hstep : TS.setAttr {} "time" (some (.arr tl)) =
        ({ _time := setTimesNorm (some tl) } : TS) := rfl
    rw [hstep, setTimesNorm_ne_nil tl htne]
  rw [hts1]
  have hcf : (x.extra.filter (arrayAttrPred tl.length) ++
      [("time", AttrVal.arr tl)] ++
      x.extra.filter (internalAttrPred tl.length)).foldl
      (fun a c => if c.1.toLower == "time" then a
        else a.setAttr c.1.toLower (some c.2))
      ({ _time := some tl } : TS) =
      ({ _time := some tl,
         extra := x.extra.filter (arrayAttrPred tl.length) ++
           x.extra.filter (internalAttrPred tl.length) } : TS) := by
    rw [List.foldl_append, List.foldl_append]
    rw [colsFold_append _ _ (by intro p hp; simp)
      (filter_names_nodup x.extra hnd _) hlowA hresA]
    have hmid : List.foldl
        (fun (a : TS) (c : String × AttrVal) => if c.1.toLower == "time" then a
          else a.setAttr c.1.toLower (some c.2))
        ({ _time := some tl,
           extra := [] ++ x.extra.filter (arrayAttrPred tl.length) } : TS)
        [("time", AttrVal.arr tl)] =
        ({ _time := some tl,
           extra := [] ++ x.extra.filter (arrayAttrPred tl.length) } : TS) := by
      simp [List.foldl_cons, List.foldl_nil, lower_time]
    rw [hmid]
    rw [colsFold_append _ _ ?freshI (filter_names_nodup x.extra hnd _)
      hlowI hresI]
    case freshI =>
      intro p hp
      simp only [List.nil_append]
      exact filter_names_disjoint x.extra hnd _ _
        (fun q _ hand => arr_int_incompatible tl.length q ⟨hand.2, hand.1⟩)
        p.1 (List.mem_map_of_mem Prod.fst hp)
    simp
  rw [hcf]
  have hmf : (([("dt", AttrVal.scal x.dt), ("mjdref", AttrVal.scal x.mjdref),
      ("notes", AttrVal.vstr x.notes)] ++
      x.extra.filter (metaPublicPred tl.length) ++
      [("gti", AttrVal.mat gv)]).foldl
      (fun a m => a.setAttr m.1.toLower (some m.2))
      ({ _time := some tl,
         extra := x.extra.filter (arrayAttrPred tl.length) ++
           x.extra.filter (internalAttrPred tl.length) } : TS)) =
      ({ _time := some tl, _gti := some gv, _mask := none, dt := x.dt,
         mjdref := x.mjdref, notes := x.notes,
         extra := x.extra.filter (arrayAttrPred tl.length) ++
           x.extra.filter (internalAttrPred tl.length) ++
           x.extra.filter (metaPublicPred tl.length) } : TS) := by
    rw [List.foldl_append, List.foldl_append]
    have hfold3 : ([("dt", AttrVal.scal x.dt), ("mjdref", AttrVal.scal x.mjdref),
        ("notes", AttrVal.vstr x.notes)]).foldl
          (fun a m => a.setAttr m.1.toLower (some m.2))
          ({ _time := some tl,
             extra := x.extra.filter (arrayAttrPred tl.length) ++
               x.extra.filter (internalAttrPred tl.length) } : TS) =
        ({ _time := some tl, dt := x.dt, mjdref := x.mjdref, notes := x.notes,
           extra := x.extra.filter (arrayAttrPred tl.length) ++
             x.extra.filter (internalAttrPred tl.length) } : TS) := by
      simp only [List.foldl_cons, List.foldl_nil, lower_dt, lower_mjdref,
        lower_notes]
      rfl
    rw [hfold3]
    rw [metaFold_append _ _ ?freshP (filter_names_nodup x.extra hnd _)
      hlowP hresP]
    case freshP =>
      intro p hp
      simp only [List.map_append, List.mem_append, not_or]
      constructor
      · exact filter_names_disjoint x.extra hnd _ _
          (fun q _ hand => arr_meta_incompatible tl.length q ⟨hand.2, hand.1⟩)
          p.1 (List.mem_map_of_mem Prod.fst hp)
      · exact filter_names_disjoint x.extra hnd _ _
          (fun q _ hand => int_meta_incompatible tl.length q ⟨hand.2, hand.1⟩)
          p.1 (List.mem_map_of_mem Prod.fst hp)
    have hgtistep : ([("gti", AttrVal.mat gv)]).foldl
        (fun a m => a.setAttr m.1.toLower (some m.2))
        ({ _time := some tl, dt := x.dt, mjdref := x.mjdref, notes := x.notes,
           extra := (x.extra.filter (arrayAttrPred tl.length) ++
             x.extra.filter (internalAttrPred tl.length)) ++
             x.extra.filter (metaPublicPred tl.length) } : TS) =
        ({ _time := some tl, _gti := some gv, _mask := none, dt := x.dt,
           mjdref := x.mjdref, notes := x.notes,
           extra := (x.extra.filter (arrayAttrPred tl.length) ++
             x.extra.filter (internalAttrPred tl.length)) ++
             x.extra.filter (metaPublicPred tl.length) } : TS) := by
      simp only [List.foldl_cons, List.foldl_nil, lower_gti]
      rfl
    rw [hgtistep]
  rw [hmf]

/-- `np.array_equal` of a value with itself. -/
theorem npArrayEqualVal_refl (v : AttrVal) :
    npArrayEqualVal (some v) (some v) = true := by
  simp [npArrayEqualVal]

/-- The meta-attribute comparison of a value with itself. -/
theorem metaValEq_refl (v : AttrVal) : metaValEq (some v) (some v) = true := by
  unfold metaValEq
  cases hs : v.isScalar <;> simp [hs, npArrayEqualVal]

/-- `set(l) == set(l)`. -/
theorem listSetEq_refl (l : List String) : listSetEq l l = true := by
  unfold listSetEq
  simp [List.all_eq_true]

/-- `__eq__` returns `True` once the attribute-name lists coincide and
every compared value agrees. -/
theorem tsEq_of_parts (y x : TS)
    (ha : y.array_attrs = x.array_attrs)
    (hb : y.meta_attrs = x.meta_attrs)
    (hc : ∀ n ∈ y.meta_attrs, metaValEq (y.getAttr n) (x.getAttr n) = true)
    (hd : ∀ n ∈ y.array_attrs, npArrayEqualVal (y.getAttr n) (x.getAttr n) = true)
    (he : ∀ n ∈ y.internal_array_attrs,
      npArrayEqualVal (y.getAttr n) (x.getAttr n) = true) :
    tsEqBool y x = true := by
  unfold tsEqBool
  simp only [Bool.and_eq_true]
  refine ⟨⟨⟨⟨?_, ?_⟩, ?_⟩, ?_⟩, ?_⟩
  · rw [ha]; exact listSetEq_refl _
  · rw [hb]; exact listSetEq_refl _
  · exact List.all_eq_true.mpr hc
  · exact List.all_eq_true.mpr hd
  · exact List.all_eq_true.mpr he

/-- Claim C4, amended: the tabular round trip
`from_astropy_table(to_astropy_table(x))` reproduces an object equal to
`x` under the library's equality, for every non-empty series whose
attribute names are lowercase, pairwise distinct and none of the
class-reserved names, and whose lazy mask cache is not materialized.
(Uppercase attribute names break the round trip — `c4_counterexample` —
because the importer lowercases names; a materialized `_mask` would be
exported as a column but cleared again by the `gti` setter during import.) -/
theorem c4_roundtrip (x : TS) (tl : List ℚ)
    (ht : x._time = some tl) (htne : tl ≠ [])
    (hm : x._mask = none)
    (hnd : (x.extra.map Prod.fst).Nodup)
    (hres : ∀ n ∈ x.extra.map Prod.fst, n ∉ reservedNames)
    (hlow : ∀ n ∈ x.extra.map Prod.fst, n.toLower = n) :
    tsEqBool (fromAstropyTable x.toAstropyTable) x = true := by
  obtain ⟨gv, hgv⟩ : ∃ g, x.gti = some g := by
    unfold TS.gti
    rw [ht]
    cases x._gti with
    | some g => exact ⟨g, rfl⟩
    | none => exact ⟨_, rfl⟩
  rw [import_char x tl gv ht htne hm hnd hres hlow hgv]
  have hsubA : ∀ p ∈ x.extra.filter (arrayAttrPred tl.length), p ∈ x.extra :=
    fun p hp => List.mem_of_mem_filter hp
  have hsubI : ∀ p ∈ x.extra.filter (internalAttrPred tl.length), p ∈ x.extra :=
    fun p hp => List.mem_of_mem_filter hp
  have hsubP : ∀ p ∈ x.extra.filter (metaPublicPred tl.length), p ∈ x.extra :=
    fun p hp => List.mem_of_mem_filter hp
  have hInoA : ∀ p ∈ x.extra.filter (internalAttrPred tl.length),
      ¬ arrayAttrPred tl.length p = true :=
    fun p hp ha => arr_int_incompatible tl.length p ⟨ha, List.of_mem_filter hp⟩
  have hPnoA : ∀ p ∈ x.extra.filter (metaPublicPred tl.length),
      ¬ arrayAttrPred tl.length p = true :=
    fun p hp ha => arr_meta_incompatible tl.length p ⟨ha, List.of_mem_filter hp⟩
  have hAnoI : ∀ p ∈ x.extra.filter (arrayAttrPred tl.length),
      ¬ internalAttrPred tl.length p = true :=
    fun p hp hi => arr_int_incompatible tl.length p ⟨List.of_mem_filter hp, hi⟩
  have hPnoI : ∀ p ∈ x.extra.filter (metaPublicPred tl.length),
      ¬ internalAttrPred tl.length p = true :=
    fun p hp hi => int_meta_incompatible tl.length p ⟨hi, List.of_mem_filter hp⟩
  have hAnoP : ∀ p ∈ x.extra.filter (arrayAttrPred tl.length),
      ¬ metaPublicPred tl.length p = true :=
    fun p hp hq => arr_meta_incompatible tl.length p ⟨List.of_mem_filter hp, hq⟩
  have hInoP : ∀ p ∈ x.extra.filter (internalAttrPred tl.length),
      ¬ metaPublicPred tl.length p = true :=
    fun p hp hq => int_meta_incompatible tl.length p ⟨List.of_mem_filter hp, hq⟩
  have hynd : (((x.extra.filter (arrayAttrPred tl.length) ++
      x.extra.filter (internalAttrPred tl.length) ++
      x.extra.filter (metaPublicPred tl.length)).map Prod.fst)).Nodup := by
    simp only [List.map_append]
    refine List.nodup_append.mpr ⟨List.nodup_append.mpr
      ⟨filter_names_nodup x.extra hnd _, filter_names_nodup x.extra hnd _, ?_⟩,
      filter_names_nodup x.extra hnd _, ?_⟩
    · exact filter_names_disjoint x.extra hnd _ _
        (fun q _ hand => arr_int_incompatible tl.length q hand)
    · intro n hn
      rcases List.mem_append.mp hn with hn | hn
      · exact filter_names_disjoint x.extra hnd _ _
          (fun q _ hand => arr_meta_incompatible tl.length q hand) n hn
      · exact filter_names_disjoint x.extra hnd _ _
          (fun q _ hand => int_meta_incompatible tl.length q
            ⟨hand.1, hand.2⟩) n hn
  have hyres : ∀ n ∈ (x.extra.filter (arrayAttrPred tl.length) ++
      x.extra.filter (internalAttrPred tl.length) ++
      x.extra.filter (metaPublicPred tl.length)).map Prod.fst,
      n ∉ reservedNames := by
    intro n hn
    simp only [List.mem_map] at hn
    obtain ⟨p, hp, he⟩ := hn
    rcases List.mem_append.mp hp with hp | hp
    · rcases List.mem_append.mp hp with hp | hp
      · exact he ▸ hres p.1 (List.mem_map_of_mem Prod.fst (hsubA p hp))
      · exact he ▸ hres p.1 (List.mem_map_of_mem Prod.fst (hsubI p hp))
    · exact he ▸ hres p.1 (List.mem_map_of_mem Prod.fst (hsubP p hp))
  have hfiltA : (x.extra.filter (arrayAttrPred tl.length) ++
      x.extra.filter (internalAttrPred tl.length) ++
      x.extra.filter (metaPublicPred tl.length)).filter
        (arrayAttrPred tl.length) =
      x.extra.filter (arrayAttrPred tl.length) := by
    rw [List.filter_append, List.filter_append,
      List.filter_eq_self.mpr (fun p hp => List.of_mem_filter hp),
      List.filter_eq_nil_iff.mpr hInoA, List.filter_eq_nil_iff.mpr hPnoA]
    simp
  have hfiltI : (x.extra.filter (arrayAttrPred tl.length) ++
      x.extra.filter (internalAttrPred tl.length) ++
      x.extra.filter (metaPublicPred tl.length)).filter
        (internalAttrPred tl.length) =
      x.extra.filter (internalAttrPred tl.length) := by
    rw [List.filter_append, List.filter_append,
      List.filter_eq_nil_iff.mpr hAnoI,
      List.filter_eq_self.mpr (fun p hp => List.of_mem_filter hp),
      List.filter_eq_nil_iff.mpr hPnoI]
    simp
  have hfiltP : (x.extra.filter (arrayAttrPred tl.length) ++
      x.extra.filter (internalAttrPred tl.length) ++
      x.extra.filter (metaPublicPred tl.length)).filter
        (metaPublicPred tl.length) =
      x.extra.filter (metaPublicPred tl.length) := by
    rw [List.filter_append, List.filter_append,
      List.filter_eq_nil_iff.mpr hAnoP, List.filter_eq_nil_iff.mpr hInoP,
      List.filter_eq_self.mpr (fun p hp => List.of_mem_filter hp)]
    simp
  have hlookY : ∀ p ∈ x.extra.filter (arrayAttrPred tl.length) ++
      x.extra.filter (internalAttrPred tl.length) ++
      x.extra.filter (metaPublicPred tl.length),
      (x.extra.filter (arrayAttrPred tl.length) ++
        x.extra.filter (internalAttrPred tl.length) ++
        x.extra.filter (metaPublicPred tl.length)).lookup p.1 = some p.2 :=
    fun p hp => lookup_eq_of_mem _ p hynd hp
  have hlookX : ∀ p ∈ x.extra, x.extra.lookup p.1 = some p.2 :=
    fun p hp => lookup_eq_of_mem x.extra p hnd hp
  apply tsEq_of_parts
  · rw [array_attrs_char _ tl rfl, array_attrs_char x tl ht]
    show ((x.extra.filter (arrayAttrPred tl.length) ++
      x.extra.filter (internalAttrPred tl.length) ++
      x.extra.filter (metaPublicPred tl.length)).filter
        (arrayAttrPred tl.length)).map Prod.fst = _
    rw [hfiltA]
  · rw [meta_attrs_char _ tl rfl rfl hynd hyres,
      meta_attrs_char x tl ht hm hnd hres]
    show _ ++ ((x.extra.filter (arrayAttrPred tl.length) ++
      x.extra.filter (internalAttrPred tl.length) ++
      x.extra.filter (metaPublicPred tl.length)).filter
        (metaPublicPred tl.length)).map Prod.fst ++ _ = _
    rw [hfiltP]
  · intro n hn
    rw [meta_attrs_char _ tl rfl rfl hynd hyres] at hn
    rw [show ((x.extra.filter (arrayAttrPred tl.length) ++
      x.extra.filter (internalAttrPred tl.length) ++
      x.extra.filter (metaPublicPred tl.length)).filter
        (metaPublicPred tl.length)) =
      x.extra.filter (metaPublicPred tl.length) from hfiltP] at hn
    rcases List.mem_append.mp hn with hn | hn
    · rcases List.mem_append.mp hn with hn | hn
      · rcases List.mem_cons.mp hn with he | hn
        · subst he
          exact metaValEq_refl (.scal x.dt)
        rcases List.mem_cons.mp hn with he | hn
        · subst he
          exact metaValEq_refl (.scal x.mjdref)
        rcases List.mem_cons.mp hn with he | hn
        · subst he
          exact metaValEq_refl (.vstr x.notes)
        · simp at hn
      · simp only [List.mem_map] at hn
        obtain ⟨p, hp, he⟩ := hn
        subst he
        have hresp : p.1 ∉ reservedNames :=
          hres p.1 (List.mem_map_of_mem Prod.fst (hsubP p hp))
        have hyv := hlookY p (List.mem_append.mpr (Or.inr hp))
        rw [getAttr_nonreserved _ _ hresp, getAttr_nonreserved _ _ hresp]
        show metaValEq ((x.extra.filter (arrayAttrPred tl.length) ++
          x.extra.filter (internalAttrPred tl.length) ++
          x.extra.filter (metaPublicPred tl.length)).lookup p.1)
          (x.extra.lookup p.1) = true
        rw [hyv, hlookX p (hsubP p hp)]
        exact metaValEq_refl p.2
    · have he : n = "gti" := by simpa using hn
      subst he
      show metaValEq (some (.mat gv)) (x.gti.map .mat) = true
      rw [hgv]
      exact metaValEq_refl (.mat gv)
  · intro n hn
    rw [array_attrs_char _ tl rfl] at hn
    rw [show ((x.extra.filter (arrayAttrPred tl.length) ++
      x.extra.filter (internalAttrPred tl.length) ++
      x.extra.filter (metaPublicPred tl.length)).filter
        (arrayAttrPred tl.length)) =
      x.extra.filter (arrayAttrPred tl.length) from hfiltA] at hn
    simp only [List.mem_map] at hn
    obtain ⟨p, hp, he⟩ := hn
    subst he
    have hresp : p.1 ∉ reservedNames :=
      hres p.1 (List.mem_map_of_mem Prod.fst (hsubA p hp))
    have hyv := hlookY p (List.mem_append.mpr
      (Or.inl (List.mem_append.mpr (Or.inl hp))))
    rw [getAttr_nonreserved _ _ hresp, getAttr_nonreserved _ _ hresp]
    show npArrayEqualVal ((x.extra.filter (arrayAttrPred tl.length) ++
      x.extra.filter (internalAttrPred tl.length) ++
      x.extra.filter (metaPublicPred tl.length)).lookup p.1)
      (x.extra.lookup p.1) = true
    rw [hyv, hlookX p (hsubA p hp)]
    exact npArrayEqualVal_refl p.2
  · intro n hn
    rw [internal_attrs_char _ tl rfl rfl] at hn
    rw [show ((x.extra.filter (arrayAttrPred tl.length) ++
      x.extra.filter (internalAttrPred tl.length) ++
      x.extra.filter (metaPublicPred tl.length)).filter
        (internalAttrPred tl.length)) =
      x.extra.filter (internalAttrPred tl.length) from hfiltI] at hn
    simp only [List.mem_map] at hn
    obtain ⟨p, hp, he⟩ := hn
    subst he
    have hresp : p.1 ∉ reservedNames :=
      hres p.1 (List.mem_map_of_mem Prod.fst (hsubI p hp))
    have hyv := hlookY p (List.mem_append.mpr
      (Or.inl (List.mem_append.mpr (Or.inr hp))))
    rw [getAttr_nonreserved _ _ hresp, getAttr_nonreserved _ _ hresp]
    show npArrayEqualVal ((x.extra.filter (arrayAttrPred tl.length) ++
      x.extra.filter (internalAttrPred tl.length) ++
      x.extra.filter (metaPublicPred tl.length)).lookup p.1)
      (x.extra.lookup p.1) = true
    rw [hyv, hlookX p (hsubI p hp)]
    exact npArrayEqualVal_refl p.2

/-- Witness for `c4_roundtrip` at the concrete lowercase series `exC4w`. -/
theorem c4_roundtrip_witness :
    tsEqBool (fromAstropyTable exC4w.toAstropyTable) exC4w = true :=
  c4_roundtrip exC4w [1, 2] rfl (by decide) rfl (by decide)
    (by intro n hn; fin_cases hn <;> decide)
    (by intro n hn; fin_cases hn <;> with_unfolding_all decide)

end StingraySpec
